import Mathlib

/-!
Shallow embedding of the core of statsrelay's traffic-shaping subsystem:
the StatsD line validator (src/validate.c), the sampler (src/sampling.c)
and the elider (src/elide.c).  C doubles are modelled as rationals (ℚ):
every arithmetic operation the embedded code performs on the values the
claims exercise (sums, divisions by nonzero integers, comparisons) is
exact on doubles in the ranges involved, so the rational model agrees
with the C semantics there.  NaN reservoir sentinels are modelled as
`Option ℚ` with `none` for NaN, which is how the source uses them
(isnan-tested sentinels only).
-/

/-- Metric types.  The enum itself lives in validate.h, which is not part
of the staged sources.  Modelled from the spec: the spec fixes the tag set
`{c, ms, kv, g, h, s}` mapped to `{Counter, Timer, KeyValue, Gauge,
Histogram, Set}` "in that order (enum ordinal is significant)", and
requires unknown type tags to be rejected; the source rejects via
`result->type < 0`, which places `METRIC_UNKNOWN` at a negative ordinal. -/
inductive metric_type
  | METRIC_COUNTER
  | METRIC_TIMER
  | METRIC_KV
  | METRIC_GAUGE
  | METRIC_HIST
  | METRIC_S
  | METRIC_UNKNOWN
deriving DecidableEq, Repr

open metric_type

/-- Modelled from the spec: the enum ordinal of each metric type
(0..5 for the six tags in order, negative for unknown). -/
def metric_ord : metric_type → ℤ
  | METRIC_COUNTER => 0
  | METRIC_TIMER => 1
  | METRIC_KV => 2
  | METRIC_GAUGE => 3
  | METRIC_HIST => 4
  | METRIC_S => 5
  | METRIC_UNKNOWN => -1

/-- Output record of the validator (validate.h's
`validate_parsed_result_t`; fields per spec §3.1 and their uses in
validate.c and sampling.c). -/
structure validate_parsed_result where
  value : ℚ
  type : metric_type
  presampling_value : ℚ
deriving DecidableEq, Repr

/-- C `isspace` characters skipped by `strtod`. -/
def c_isspace (c : Char) : Bool :=
  c = ' ' ∨ c = '\t' ∨ c = '\n' ∨ c = '\x0b' ∨ c = '\x0c' ∨ c = '\r'

/-- C `isdigit` (codepoints 48..57, written as a table). -/
def c_isdigit (c : Char) : Bool :=
  c = '0' ∨ c = '1' ∨ c = '2' ∨ c = '3' ∨ c = '4' ∨
  c = '5' ∨ c = '6' ∨ c = '7' ∨ c = '8' ∨ c = '9'

/-- Numeric value of a decimal digit character (codepoint minus 48). -/
def digit_val (c : Char) : ℕ :=
  if c = '1' then 1 else if c = '2' then 2 else if c = '3' then 3
  else if c = '4' then 4 else if c = '5' then 5 else if c = '6' then 6
  else if c = '7' then 7 else if c = '8' then 8 else if c = '9' then 9
  else 0

/-- Longest digit prefix and the remainder. -/
def take_digits : List Char → List Char × List Char
  | [] => ([], [])
  | c :: rest =>
    if c_isdigit c then
      let (ds, r) := take_digits rest
      (c :: ds, r)
    else ([], c :: rest)

/-- Drop leading C whitespace. -/
def drop_space : List Char → List Char
  | [] => []
  | c :: rest => if c_isspace c then drop_space rest else c :: rest

/-- Numeric value of a run of decimal digits. -/
def digits_to_nat (ds : List Char) : ℕ :=
  ds.foldl (fun a c => a * 10 + digit_val c) 0

/-- Ten to an integer power, as a rational. -/
def pow10 (e : ℤ) : ℚ :=
  if 0 ≤ e then ((10 : ℚ) ^ e.toNat) else 1 / ((10 : ℚ) ^ (-e).toNat)

/-- Exponent part of a decimal double literal: an optional sign then
digits.  `strtod` backtracks when no digit follows, so an empty digit
run contributes exponent 0 (matching a parse that stops before `e`). -/
def strtod_exp_body (l : List Char) : ℤ :=
  let (sg, l2) :=
    match l with
    | '+' :: r => ((1 : ℤ), r)
    | '-' :: r => ((-1 : ℤ), r)
    | _ => ((1 : ℤ), l)
  let ds := (take_digits l2).1
  if ds = [] then 0 else sg * (digits_to_nat ds : ℤ)

/-- Exponent of the literal starting at `l` (the remainder after the
mantissa): `e`/`E` introduced, else 0. -/
def strtod_exp (l : List Char) : ℤ :=
  match l with
  | 'e' :: r => strtod_exp_body r
  | 'E' :: r => strtod_exp_body r
  | _ => 0

/-- The C library `strtod` on the NUL-terminated remainder of the line,
modelled on decimal forms: optional whitespace, optional sign, digits
with an optional fraction, optional exponent.  `none` models "no
conversion performed" (err == start, value 0).  Hexadecimal floats and
the `inf`/`nan` spellings are outside the model (none of the embedded
call sites nor the claims involve them, and they have no rational
counterpart). -/
def strtod (l : List Char) : Option ℚ :=
  let l1 := drop_space l
  let (sg, l2) :=
    match l1 with
    | '+' :: r => ((1 : ℚ), r)
    | '-' :: r => ((-1 : ℚ), r)
    | _ => ((1 : ℚ), l1)
  let (ip, r1) := take_digits l2
  let (fp, r2) :=
    match r1 with
    | '.' :: r => take_digits r
    | _ => (([] : List Char), r1)
  if ip = [] ∧ fp = [] then none
  else
    let mant : ℚ := (digits_to_nat ip : ℚ) + (digits_to_nat fp : ℚ) / ((10 : ℚ) ^ fp.length)
    some (sg * mant * pow10 (strtod_exp r2))

/-- Index of the last occurrence of `ch` (C `memrchr` over the whole
line, as validate.c uses it to find the value separator). -/
def memrchr_idx (ch : Char) : List Char → Option ℕ
  | [] => none
  | c :: rest =>
    match memrchr_idx ch rest with
    | some i => some (i + 1)
    | none => if c = ch then some 0 else none

/-- Index of the first occurrence of `ch` (C `memchr`). -/
def memchr_idx (ch : Char) : List Char → Option ℕ
  | [] => none
  | c :: rest => if c = ch then some 0 else (memchr_idx ch rest).map (· + 1)

/-- validate.c's table lookup `parse_stat_type`: a 1-2 byte tag from
`{"c","ms","kv","g","h","s"}` maps to ordinal 0..5, anything else to
`METRIC_UNKNOWN`. -/
def parse_stat_type (l : List Char) : metric_type :=
  if l = ['c'] then METRIC_COUNTER
  else if l = ['m', 's'] then METRIC_TIMER
  else if l = ['k', 'v'] then METRIC_KV
  else if l = ['g'] then METRIC_GAUGE
  else if l = ['h'] then METRIC_HIST
  else if l = ['s'] then METRIC_S
  else METRIC_UNKNOWN

/-- Rate suffix after the second `|` (validate.c lines 98-117): at
least one character must follow the `|` and be `@`; the nonempty
remainder must convert under `strtod` (an empty remainder or no
conversion is an error). -/
def parse_rate_suffix (l : List Char) : Option ℚ :=
  match l with
  | c :: rateStr => if c = '@' then (if rateStr = [] then none else strtod rateStr) else none
  | [] => none

/-- validate.c's `validate_statsd`.  `none` models the nonzero error
return.  The line is a value (no mutation to model); the C copy
`strndup` and the pointer arithmetic over it are rendered as list
drops/takes at the same offsets:
* last `:` = `memrchr(start, ':', plen)`; index 0 is the zero-length key;
* value = `strtod` from just after that colon (reject iff no conversion,
  i.e. a zero result with `err == start`);
* first `|` searched after the colon; the type tag runs to the second
  `|` or to the end of the line;
* reject when the tag's ordinal is negative (unknown);
* with a second `|`, the `@RATE` suffix per `parse_rate_suffix`. -/
def validate_statsd (line : List Char) : Option validate_parsed_result :=
  (memrchr_idx ':' line).bind fun ci =>
  if ci < 1 then none
  else
    (strtod (line.drop (ci + 1))).bind fun v =>
    (memchr_idx '|' (line.drop (ci + 1))).bind fun pi =>
    match memchr_idx '|' ((line.drop (ci + 1)).drop (pi + 1)) with
    | none =>
      let ty := parse_stat_type ((line.drop (ci + 1)).drop (pi + 1))
      if metric_ord ty < 0 then none else some ⟨v, ty, 1⟩
    | some qi =>
      let ty := parse_stat_type (((line.drop (ci + 1)).drop (pi + 1)).take qi)
      if metric_ord ty < 0 then none
      else
        (parse_rate_suffix (((line.drop (ci + 1)).drop (pi + 1)).drop (qi + 1))).bind
          fun p => some ⟨v, ty, p⟩

/-- Sampler return values (sampling.h, as used by sampling.c). -/
inductive sampling_result
  | SAMPLER_NOT_SAMPLING
  | SAMPLER_SAMPLING
  | SAMPLER_FLAGGED
deriving DecidableEq, Repr

open sampling_result

/-- C `DBL_MIN`, the smallest positive normal double, 2^(-1022): the
source's "unset max" sentinel (float.h constant, exact as a rational). -/
def dblMin : ℚ := 1 / (2 ^ 1022)

/-- C `DBL_MAX`, (2 - 2^(-52)) * 2^1023 = 2^1024 - 2^971: the source's
"unset min" sentinel (float.h constant, exact as a rational). -/
def dblMax : ℚ := 2 ^ 1024 - 2 ^ 971

/-- The C compound assignment `bucket->count += c` where `count` is a
`uint64_t` and `c` a nonnegative `double`: the sum is computed in double
and converted back by truncation. -/
def u64_add_double (n : ℕ) (c : ℚ) : ℕ :=
  (Int.floor ((n : ℚ) + c)).toNat

/-- sampling.c's `struct sample_bucket`.  The trailing flexible array
member `reservoir` is modelled as a list of `threshold` slots with
`none` for the NaN "empty" sentinel.  Counter and gauge buckets are
allocated without the reservoir and never initialize or read the
timer-only fields; the model gives those fields inert defaults (0 / [])
at creation. -/
structure sample_bucket where
  sampling : Bool
  last_window_count : ℕ
  last_modified_at : ℤ
  sum : ℚ
  count : ℕ
  type : metric_type
  reservoir_index : ℕ
  upper : ℚ
  lower : ℚ
  lower_sample_rate : ℚ
  upper_sample_rate : ℚ
  reservoir : List (Option ℚ)
deriving DecidableEq, Repr

/-- Modelled from the spec: the keyed bucket map is an external
collaborator (spec §6, "Keyed map": init/get/put/iter/filter/size), its
hashmap.c implementation not being among the staged sources.  An
association list with the newest entry in front models it; `put` is only
ever called for an absent key. -/
abbrev BucketMap : Type := List (String × sample_bucket)

/-- Keyed map `get`: the entry's value, or none. -/
def hashmap_get (m : BucketMap) (k : String) : Option sample_bucket :=
  match m with
  | ([] : List (String × sample_bucket)) => none
  | e :: rest => if e.1 = k then some e.2 else hashmap_get rest k

/-- Keyed map `put` of a key not yet present. -/
def hashmap_put (m : BucketMap) (k : String) (b : sample_bucket) : BucketMap :=
  (k, b) :: m

/-- Keyed map `size`: number of entries. -/
def hashmap_size (m : BucketMap) : ℕ :=
  (m : List (String × sample_bucket)).length

/-- In-place mutation of the bucket a `hashmap_get` returned a pointer
to: every entry under the key takes the new bucket (at most one exists). -/
def map_set : BucketMap → String → sample_bucket → BucketMap
  | [], _, _ => []
  | e :: rest, k, b => (if e.1 = k then (k, b) else e) :: map_set rest k b

/-- sampling.c's `struct sampler`.  The drand48 state is not part of the
model: each timer consider-call takes the `lrand48` draw it would make
as an argument.  The expiry timer machinery (libev) is outside the core;
the sweep itself is `expiry_callback` below. -/
structure sampler where
  threshold : ℕ
  window : ℤ
  cardinality : ℤ
  reservoir_size : ℤ
  timer_flush_min_max : Bool
  map : BucketMap
deriving Repr

/-- sampling.c's `flag_incoming_metric`: over-cardinality test for a new
key. -/
def flag_incoming_metric (s : sampler) : Bool :=
  s.cardinality ≤ (hashmap_size s.map : ℤ)

/-- sampling.c's `sampler_update_callback` on one bucket (the sampler
argument only supplies `threshold`): window rollover at a flush
boundary. -/
def sampler_update_callback (threshold : ℕ) (b : sample_bucket) : sample_bucket :=
  let b1 :=
    if threshold < b.last_window_count then { b with sampling := true }
    else if b.sampling ∧ b.last_window_count ≤ threshold then
      { b with sampling := false, reservoir_index := 0 }
    else b
  { b1 with last_window_count := 0 }

/-- sampling.c's `expiry_callback` over the whole map (one sweep of the
expiry timer): buckets in sampling mode are kept; an idle bucket whose
age exceeds the ttl is deleted. -/
def expiry_callback (m : BucketMap) (ttl : ℤ) (now : ℤ) : BucketMap :=
  (m : List (String × sample_bucket)).filter
    (fun e => e.2.sampling || !(decide (ttl < now - e.2.last_modified_at)))

/-- The counter/gauge accumulation weight and value adjustment of
sampling.c: `1/presampling` applies only when `0 < presampling < 1`. -/
def presampling_weight (p : ℚ) : ℚ :=
  if 0 < p ∧ p < 1 then 1 / p else 1

/-- A fresh counter bucket (sampler_consider_counter's new-key path):
`last_window_count` starts at 1, timer-only fields are left alone (inert
defaults here, uninitialized and unread in the source). -/
def fresh_counter_bucket (ty : metric_type) (now : ℤ) : sample_bucket :=
  { sampling := false
    last_window_count := 1
    last_modified_at := now
    sum := 0
    count := 0
    type := ty
    reservoir_index := 0
    upper := 0
    lower := 0
    lower_sample_rate := 0
    upper_sample_rate := 0
    reservoir := [] }

/-- sampling.c's `sampler_consider_counter`.  `allocOk` is the malloc
oracle for the new-bucket allocation (false models a NULL return); `now`
is the coarse clock's value for this call. -/
def sampler_consider_counter (s : sampler) (name : String)
    (parsed : validate_parsed_result) (allocOk : Bool) (now : ℤ) :
    sampling_result × sampler :=
  if parsed.type ≠ METRIC_COUNTER then (SAMPLER_NOT_SAMPLING, s)
  else
    match hashmap_get s.map name with
    | none =>
      if flag_incoming_metric s then (SAMPLER_FLAGGED, s)
      else if !allocOk then (SAMPLER_FLAGGED, s)
      else
        (SAMPLER_NOT_SAMPLING,
          { s with map := hashmap_put s.map name (fresh_counter_bucket parsed.type now) })
    | some b0 =>
      let b1 := { b0 with last_window_count := b0.last_window_count + 1, last_modified_at := now }
      let b2 :=
        if ¬b1.sampling ∧ s.threshold < b1.last_window_count then { b1 with sampling := true }
        else b1
      if b2.sampling then
        let w := presampling_weight parsed.presampling_value
        let b3 := { b2 with
          sum := b2.sum + parsed.value * w
          count := u64_add_double b2.count w }
        (SAMPLER_SAMPLING, { s with map := map_set s.map name b3 })
      else (SAMPLER_NOT_SAMPLING, { s with map := map_set s.map name b2 })

/-- Reservoir step of sampler_consider_timer (the code after the
upper/lower bookkeeping): slot-fill while `reservoir_index < threshold`,
else Algorithm-R style replacement with the `lrand48` draw `rand`; then
the sum/weighted-count accumulation.  Returns `SAMPLER_SAMPLING`. -/
def timer_reservoir (threshold : ℕ) (rand : ℕ) (value p : ℚ) (b : sample_bucket) :
    sampling_result × sample_bucket :=
  let b1 :=
    if b.reservoir_index < threshold then
      { b with
        reservoir := b.reservoir.set b.reservoir_index (some value)
        reservoir_index := b.reservoir_index + 1 }
    else
      let k := rand % b.last_window_count
      if k < threshold then { b with reservoir := b.reservoir.set k (some value) } else b
  (SAMPLER_SAMPLING,
    { b1 with
      sum := b1.sum + value
      count := u64_add_double b1.count (presampling_weight p) })

/-- Lower-extremum step of sampler_consider_timer: when the candidate
undercuts `lower`, record the rate; a still-sentinel `lower` absorbs the
value and returns without reservoir insertion, otherwise the old `lower`
is the value forwarded to the reservoir. -/
def timer_lower (threshold : ℕ) (rand : ℕ) (value p : ℚ) (b : sample_bucket) :
    sampling_result × sample_bucket :=
  if value < b.lower then
    let b1 := { b with lower_sample_rate := p }
    if b1.lower ≠ dblMax then
      timer_reservoir threshold rand b1.lower p { b1 with lower := value }
    else (SAMPLER_SAMPLING, { b1 with lower := value })
  else timer_reservoir threshold rand value p b

/-- Sampling-mode body of sampler_consider_timer (lines guarded by
`if (bucket->sampling)`): upper-extremum bookkeeping, then the lower
step, then reservoir insertion. -/
def timer_body (threshold : ℕ) (rand : ℕ) (value p : ℚ) (b : sample_bucket) :
    sampling_result × sample_bucket :=
  if b.upper < value then
    let b1 := { b with upper_sample_rate := p }
    if b1.upper ≠ dblMin then
      timer_lower threshold rand b1.upper p { b1 with upper := value }
    else (SAMPLER_SAMPLING, { b1 with upper := value })
  else timer_lower threshold rand value p b

/-- Existing-bucket branch of sampler_consider_timer: window counting,
the sampling transition, then the sampling-mode body. -/
def timer_on_existing (threshold : ℕ) (rand : ℕ) (now : ℤ)
    (parsed : validate_parsed_result) (b0 : sample_bucket) :
    sampling_result × sample_bucket :=
  let b1 := { b0 with last_window_count := b0.last_window_count + 1, last_modified_at := now }
  let b2 :=
    if ¬b1.sampling ∧ threshold < b1.last_window_count then { b1 with sampling := true }
    else b1
  if b2.sampling then timer_body threshold rand parsed.value parsed.presampling_value b2
  else (SAMPLER_NOT_SAMPLING, b2)

/-- A fresh timer bucket: reservoir of `threshold` NaN slots (the source
writes the first `threshold` of the `reservoir_size` allocated slots;
spec §9 flags `reservoir_size ≥ threshold` as a precondition), sentinels
in `upper`/`lower`, and one observed event. -/
def fresh_timer_bucket (threshold : ℕ) (ty : metric_type) (now : ℤ) : sample_bucket :=
  { sampling := false
    last_window_count := 1
    last_modified_at := now
    sum := 0
    count := 0
    type := ty
    reservoir_index := 0
    upper := dblMin
    lower := dblMax
    lower_sample_rate := 0
    upper_sample_rate := 0
    reservoir := List.replicate threshold none }

/-- sampling.c's `sampler_consider_timer`; `rand` is the `lrand48` draw
this call would make if it reaches the replacement path. -/
def sampler_consider_timer (s : sampler) (name : String)
    (parsed : validate_parsed_result) (allocOk : Bool) (now : ℤ) (rand : ℕ) :
    sampling_result × sampler :=
  if parsed.type ≠ METRIC_TIMER then (SAMPLER_NOT_SAMPLING, s)
  else
    match hashmap_get s.map name with
    | none =>
      if flag_incoming_metric s then (SAMPLER_FLAGGED, s)
      else if !allocOk then (SAMPLER_FLAGGED, s)
      else
        (SAMPLER_NOT_SAMPLING,
          { s with map := hashmap_put s.map name (fresh_timer_bucket s.threshold parsed.type now) })
    | some b0 =>
      let (res, b) := timer_on_existing s.threshold rand now parsed b0
      (res, { s with map := map_set s.map name b })

/-- A fresh gauge bucket: like a counter's but `last_window_count`
starts at 0 (the shared tail below does the increment). -/
def fresh_gauge_bucket (ty : metric_type) (now : ℤ) : sample_bucket :=
  { fresh_counter_bucket ty now with last_window_count := 0 }

/-- Tail of sampler_consider_gauge shared by the new-key and
existing-key paths (the source's creation block has no `else`): refresh
`last_modified_at`, guard on `threshold <= 0` (threshold is unsigned, so
this means 0), window counting, transition, plain accumulation. -/
def gauge_tail (s : sampler) (name : String) (parsed : validate_parsed_result)
    (now : ℤ) (m : BucketMap) (b0 : sample_bucket) : sampling_result × sampler :=
  let b1 := { b0 with last_modified_at := now }
  if s.threshold = 0 then (SAMPLER_NOT_SAMPLING, { s with map := map_set m name b1 })
  else
    let b2 := { b1 with last_window_count := b1.last_window_count + 1 }
    let b3 :=
      if ¬b2.sampling ∧ s.threshold < b2.last_window_count then { b2 with sampling := true }
      else b2
    if b3.sampling then
      let b4 := { b3 with sum := b3.sum + parsed.value, count := u64_add_double b3.count 1 }
      (SAMPLER_SAMPLING, { s with map := map_set m name b4 })
    else (SAMPLER_NOT_SAMPLING, { s with map := map_set m name b3 })

/-- sampling.c's `sampler_consider_gauge`. -/
def sampler_consider_gauge (s : sampler) (name : String)
    (parsed : validate_parsed_result) (allocOk : Bool) (now : ℤ) :
    sampling_result × sampler :=
  if parsed.type ≠ METRIC_GAUGE then (SAMPLER_NOT_SAMPLING, s)
  else
    match hashmap_get s.map name with
    | none =>
      if flag_incoming_metric s then (SAMPLER_FLAGGED, s)
      else if !allocOk then (SAMPLER_FLAGGED, s)
      else
        let nb := fresh_gauge_bucket parsed.type now
        gauge_tail s name parsed now (hashmap_put s.map name nb) nb
    | some b0 => gauge_tail s name parsed now s.map b0

/-- One synthesized StatsD line of a flush, kept structurally: the key,
the numeric value, the emitted type tag and the optional `@rate` suffix.
(The `%g` text encoding and the 1472-byte UDP cap of the source are not
modelled; an encoding overflow never occurs for the inputs considered
here.) -/
structure emission where
  key : String
  value : ℚ
  tag : metric_type
  rate : Option ℚ
deriving DecidableEq, Repr

/-- sampling.c's `sampler_flush_callback` on one bucket: the emitted
lines and the bucket afterwards (accumulator resets, then the
unconditional `sampler_update_callback`). -/
def sampler_flush_callback (threshold : ℕ) (timer_flush_min_max : Bool)
    (key : String) (b : sample_bucket) : List emission × sample_bucket :=
  if ¬b.sampling ∨ b.count = 0 then ([], sampler_update_callback threshold b)
  else
    match b.type with
    | METRIC_COUNTER =>
      ([⟨key, b.sum / (b.count : ℚ), METRIC_COUNTER, some (1 / (b.count : ℚ))⟩],
        sampler_update_callback threshold { b with count := 0, sum := 0 })
    | METRIC_GAUGE =>
      ([⟨key, b.sum / (b.count : ℚ), METRIC_GAUGE, none⟩],
        sampler_update_callback threshold { b with count := 0, sum := 0 })
    | METRIC_TIMER =>
      let (es1, bU) :=
        if timer_flush_min_max ∧ dblMin < b.upper then
          ([(⟨key, b.upper, METRIC_TIMER, some b.upper_sample_rate⟩ : emission)],
            { b with upper := dblMin })
        else ([], b)
      let (es2, bL) :=
        if timer_flush_min_max ∧ bU.lower < dblMax then
          ([(⟨key, bU.lower, METRIC_TIMER, some bU.lower_sample_rate⟩ : emission)],
            { bU with lower := dblMax })
        else ([], bU)
      let num_samples := ((bL.reservoir.take threshold).filterMap id).length
      let sample_rate := (num_samples : ℚ) / (bL.count : ℚ)
      let es3 := (bL.reservoir.take threshold).filterMap
        (fun o => o.map (fun v => (⟨key, v, METRIC_TIMER, some sample_rate⟩ : emission)))
      let bR := { bL with
        reservoir := (bL.reservoir.take threshold).map (fun _ => (none : Option ℚ))
          ++ bL.reservoir.drop threshold }
      (es1 ++ es2 ++ es3,
        sampler_update_callback threshold { bR with count := 0, sum := 0 })
    | _ => ([], sampler_update_callback threshold { b with count := 0, sum := 0 })

/-- sampling.c's `sampler_flush`: every bucket through the flush
callback, collecting the emitted lines in iteration order. -/
def sampler_flush (s : sampler) : List emission × sampler :=
  let rows := s.map.map
    (fun e =>
      let r := sampler_flush_callback s.threshold s.timer_flush_min_max e.1 e.2
      (r.1, (e.1, r.2)))
  ((rows.map (fun r => r.1)).flatten, { s with map := rows.map (fun r => r.2) })

/-- sampling.c's `sampler_update_flags`: the rollover over every
bucket without flushing. -/
def sampler_update_flags (s : sampler) : sampler :=
  { s with map := s.map.map (fun e => (e.1, sampler_update_callback s.threshold e.2)) }

/-- sampling.c's `sampler_is_sampling`. -/
def sampler_is_sampling (s : sampler) (name : String) (ty : metric_type) : sampling_result :=
  match hashmap_get s.map name with
  | none => SAMPLER_NOT_SAMPLING
  | some b => if b.sampling ∧ b.type = ty then SAMPLER_SAMPLING else SAMPLER_NOT_SAMPLING

/-- sampling.c's `sampler_init` without the libev machinery: rejects a
negative threshold (the int argument), otherwise the empty-map sampler. -/
def sampler_init (threshold window cardinality reservoir_size : ℤ)
    (timer_flush_min_max : Bool) : Option sampler :=
  if threshold < 0 then none
  else some
    { threshold := threshold.toNat
      window := window
      cardinality := cardinality
      reservoir_size := reservoir_size
      timer_flush_min_max := timer_flush_min_max
      map := [] }

/-- A consider-call event: which operation, for which key, with which
parsed record, plus this call's malloc oracle, clock reading and (for
timers) `lrand48` draw. -/
structure consider_event where
  op : metric_type
  name : String
  parsed : validate_parsed_result
  allocOk : Bool
  now : ℤ
  rand : ℕ

/-- Dispatch of one consider-call (stats.c's per-type dispatch; calls
with `op` outside the three consider operations do nothing). -/
def consider_step (s : sampler) (e : consider_event) : sampling_result × sampler :=
  match e.op with
  | METRIC_COUNTER => sampler_consider_counter s e.name e.parsed e.allocOk e.now
  | METRIC_TIMER => sampler_consider_timer s e.name e.parsed e.allocOk e.now e.rand
  | METRIC_GAUGE => sampler_consider_gauge s e.name e.parsed e.allocOk e.now
  | _ => (SAMPLER_NOT_SAMPLING, s)

/-- A whole sequence of consider-calls. -/
def run_events (s : sampler) : List consider_event → sampler
  | [] => s
  | e :: rest => run_events (consider_step s e).2 rest

/-- A wall-clock instant (struct timeval). -/
structure timeval where
  tv_sec : ℤ
  tv_usec : ℤ
deriving DecidableEq, Repr

/-- elide.h's `elide_value_t`. -/
structure elide_value where
  generations : ℤ
  last_seen : timeval
deriving DecidableEq, Repr

/-- elide.h's `elide_t` without the libev gc timer (the gc sweep itself
is `elide_gc_cb` filtering below).  The map collaborator is the same
spec-modelled association list as the sampler's. -/
structure elide where
  elide_map : List (String × elide_value)
  skip : ℤ
  gc_frequency : ℤ
  gc_ttl : ℤ
deriving DecidableEq, Repr

/-- Lookup in the elide map (hashmap_get). -/
def elide_get (m : List (String × elide_value)) (k : String) : Option elide_value :=
  match m with
  | [] => none
  | e :: rest => if e.1 = k then some e.2 else elide_get rest k

/-- In-place mutation of an elide entry. -/
def elide_set : List (String × elide_value) → String → elide_value → List (String × elide_value)
  | [], _, _ => []
  | e :: rest, k, v => (if e.1 = k then (k, v) else e) :: elide_set rest k v

/-- elide.c's `elide_init` (no gc timer modelled). -/
def elide_init (skip gc_frequency gc_ttl : ℤ) : elide :=
  { elide_map := [], skip := skip, gc_frequency := gc_frequency, gc_ttl := gc_ttl }

/-- elide.c's `elide_mark`: a missing entry is created (calloc) with
`generations = skip`; `last_seen` takes `now`; the returned value is the
post-increment's original (`v->generations++`). -/
def elide_mark (e : elide) (key : String) (now : timeval) : ℤ × elide :=
  match elide_get e.elide_map key with
  | none =>
    let v : elide_value := { generations := e.skip, last_seen := now }
    (v.generations,
      { e with elide_map := (key, { v with generations := v.generations + 1 }) :: e.elide_map })
  | some v =>
    (v.generations,
      { e with elide_map :=
          elide_set e.elide_map key { v with generations := v.generations + 1, last_seen := now } })

/-- elide.c's `elide_unmark`: a missing entry is created zeroed
(calloc); `last_seen` takes `now`, `generations` is reset to `skip`,
and `skip` is returned. -/
def elide_unmark (e : elide) (key : String) (now : timeval) : ℤ × elide :=
  match elide_get e.elide_map key with
  | none =>
    (e.skip,
      { e with elide_map := (key, { generations := e.skip, last_seen := now }) :: e.elide_map })
  | some v =>
    (e.skip,
      { e with elide_map :=
          elide_set e.elide_map key { v with generations := e.skip, last_seen := now } })

/-- elide.c's gc sweep (`elide_gc_cb` under `hashmap_filter`): keep
exactly the entries seen after the cutoff second. -/
def elide_gc (m : List (String × elide_value)) (cutoff : timeval) :
    List (String × elide_value) :=
  m.filter (fun e => decide (cutoff.tv_sec < e.2.last_seen.tv_sec))

/-! Helper lemmas about the association-list map. -/

/-- Lookup after an in-place update of the same key. -/
theorem elide_get_set (m : List (String × elide_value)) (k : String) (v : elide_value) :
    elide_get (elide_set m k v) k = if (elide_get m k).isSome then some v else none := by
  induction m with
  | nil => simp [elide_get, elide_set]
  | cons e rest ih =>
    by_cases h : e.1 = k <;>
      simp [elide_get, elide_set, h, ih]

/-- Lookup after an in-place bucket update of the same key. -/
theorem hashmap_get_map_set (m : BucketMap) (k : String) (b : sample_bucket) :
    hashmap_get (map_set m k b) k = if (hashmap_get m k).isSome then some b else none := by
  induction m with
  | nil => simp [hashmap_get, map_set]
  | cons e rest ih =>
    by_cases h : e.1 = k <;>
      simp [hashmap_get, map_set, h, ih]

/-- Lookup of a different key is unaffected by an in-place update. -/
theorem hashmap_get_map_set_other (m : BucketMap) (n k : String) (b : sample_bucket)
    (h : n ≠ k) : hashmap_get (map_set m n b) k = hashmap_get m k := by
  induction m with
  | nil => simp [hashmap_get, map_set]
  | cons e rest ih =>
    by_cases he : e.1 = n <;>
      simp [hashmap_get, map_set, he, h, ih]

/-- An in-place update keeps the map's length. -/
theorem map_set_length (m : BucketMap) (k : String) (b : sample_bucket) :
    (map_set m k b).length = m.length := by
  induction m with
  | nil => rfl
  | cons e rest ih => simp [map_set, ih]

/-- An in-place update keeps the map's size. -/
theorem hashmap_size_map_set (m : BucketMap) (k : String) (b : sample_bucket) :
    hashmap_size (map_set m k b) = hashmap_size m := by
  induction m with
  | nil => rfl
  | cons e rest ih =>
    by_cases h : e.1 = k <;>
      simp [hashmap_size, map_set, h] <;>
      simpa [hashmap_size] using ih

/-- C10.  For every sampler state, key, and parsed record whose type
field differs from the operation's own metric type, the three
consider-operations return `SAMPLER_NOT_SAMPLING` and return the sampler
unchanged: no bucket is created or modified. -/
theorem consider_wrong_type_frame (s : sampler) (name : String)
    (parsed : validate_parsed_result) (allocOk : Bool) (now : ℤ) (rand : ℕ) :
    (parsed.type ≠ METRIC_COUNTER →
      sampler_consider_counter s name parsed allocOk now = (SAMPLER_NOT_SAMPLING, s)) ∧
    (parsed.type ≠ METRIC_TIMER →
      sampler_consider_timer s name parsed allocOk now rand = (SAMPLER_NOT_SAMPLING, s)) ∧
    (parsed.type ≠ METRIC_GAUGE →
      sampler_consider_gauge s name parsed allocOk now = (SAMPLER_NOT_SAMPLING, s)) := by
  refine ⟨fun h => ?_, fun h => ?_, fun h => ?_⟩ <;>
    simp [sampler_consider_counter, sampler_consider_timer, sampler_consider_gauge, h]

/-- The key of the elider scenario. -/
def key_k : String := "k"

/-- An elider initialized with skip = 3 (gc disabled). -/
def c9_elider : elide := elide_init 3 0 (-1)

/-- First call of the C9 scenario: mark at time t0. -/
def c9_s1 (t0 : timeval) : ℤ × elide := elide_mark c9_elider key_k t0

/-- Second call: mark at time t1. -/
def c9_s2 (t0 t1 : timeval) : ℤ × elide := elide_mark (c9_s1 t0).2 key_k t1

/-- Third call: unmark at time t2. -/
def c9_s3 (t0 t1 t2 : timeval) : ℤ × elide := elide_unmark (c9_s2 t0 t1).2 key_k t2

/-- Fourth call: mark again at time t2. -/
def c9_s4 (t0 t1 t2 : timeval) : ℤ × elide := elide_mark (c9_s3 t0 t1 t2).2 key_k t2

/-- C9.  `elide_mark` returns the entry's pre-increment generation count
(a missing entry being created with initial generation `skip`) and
`elide_unmark` resets the generation to `skip` and returns `skip`; both
set the entry's `last_seen` to the supplied time.  With skip = 3 the
sequence mark, mark, unmark, mark returns 3, 4, 3, 3, the stored entry
tracking each call's time. -/
theorem elide_mark_unmark_generations (e : elide) (k : String) (t : timeval)
    (t0 t1 t2 : timeval) :
    ((elide_mark e k t).1 =
      (match elide_get e.elide_map k with
       | none => e.skip
       | some v => v.generations)) ∧
    (elide_get (elide_mark e k t).2.elide_map k = some ⟨(elide_mark e k t).1 + 1, t⟩) ∧
    ((elide_unmark e k t).1 = e.skip) ∧
    (elide_get (elide_unmark e k t).2.elide_map k = some ⟨e.skip, t⟩) ∧
    ((c9_s1 t0).1 = 3 ∧ elide_get (c9_s1 t0).2.elide_map key_k = some ⟨4, t0⟩) ∧
    ((c9_s2 t0 t1).1 = 4 ∧ elide_get (c9_s2 t0 t1).2.elide_map key_k = some ⟨5, t1⟩) ∧
    ((c9_s3 t0 t1 t2).1 = 3 ∧
      elide_get (c9_s3 t0 t1 t2).2.elide_map key_k = some ⟨3, t2⟩) ∧
    ((c9_s4 t0 t1 t2).1 = 3 ∧
      elide_get (c9_s4 t0 t1 t2).2.elide_map key_k = some ⟨4, t2⟩) := by
  refine ⟨?_, ?_, ?_, ?_, ?_, ?_, ?_, ?_⟩
  · rcases h : elide_get e.elide_map k with _ | v <;>
      simp [elide_mark, h]
  · rcases h : elide_get e.elide_map k with _ | v <;>
      simp [elide_mark, h, elide_get, elide_get_set]
  · rcases h : elide_get e.elide_map k with _ | v <;>
      simp [elide_unmark, h]
  · rcases h : elide_get e.elide_map k with _ | v <;>
      simp [elide_unmark, h, elide_get, elide_get_set]
  · norm_num +decide [c9_s1, c9_elider, elide_init, elide_mark, elide_unmark, elide_get,
      elide_set, key_k]
  · norm_num +decide [c9_s1, c9_s2, c9_elider, elide_init, elide_mark, elide_unmark,
      elide_get, elide_set, key_k]
  · norm_num +decide [c9_s1, c9_s2, c9_s3, c9_elider, elide_init, elide_mark, elide_unmark,
      elide_get, elide_set, key_k]
  · norm_num +decide [c9_s1, c9_s2, c9_s3, c9_s4, c9_elider, elide_init, elide_mark,
      elide_unmark, elide_get, elide_set, key_k]

/-- The tag-encoded test line of test_validate.c (colons inside the key). -/
def tagged_line : List Char := ("a.b.c.__tag1=v1.__tag2=v2:v2:42.000|ms").data

/-- The presampled test line of test_validate.c. -/
def presampled_line : List Char := ("test.srv.req:2.5|ms|@0.2").data

/-- C2.  `validate_statsd` splits at the last `:` of the line (index 28
of the tagged line, not its first colon at index 25): the tagged line
parses to value 42, type Timer, presampling 1, and the presampled line
to value 2.5, type Timer, presampling 0.2. -/
theorem validate_chooses_last_colon :
    memrchr_idx ':' tagged_line = some 28 ∧
    memchr_idx ':' tagged_line = some 25 ∧
    validate_statsd tagged_line = some ⟨42, METRIC_TIMER, 1⟩ ∧
    validate_statsd presampled_line = some ⟨5 / 2, METRIC_TIMER, 1 / 5⟩ := by
  refine ⟨by decide, by decide, ?_, ?_⟩ <;>
    norm_num +decide [tagged_line, presampled_line, validate_statsd, parse_rate_suffix,
      strtod, memrchr_idx, memchr_idx, take_digits, drop_space, digits_to_nat, digit_val,
      pow10, strtod_exp, strtod_exp_body, parse_stat_type, c_isdigit, c_isspace, metric_ord,
      Option.bind]

/-- Adding 1.0 to a uint64 count is an ordinary increment. -/
theorem u64_add_double_one (n : ℕ) : u64_add_double n 1 = n + 1 := by
  unfold u64_add_double
  rw [show ((n : ℚ) + 1) = ((n + 1 : ℕ) : ℚ) by push_cast; ring]
  simp

/-- The counter record of the C1 scenario: value 10, no presampling. -/
def c1_parsed : validate_parsed_result := ⟨10, METRIC_COUNTER, 1⟩

/-- The C1 sampler: threshold 2, ample cardinality, empty map. -/
def c1_sampler : sampler :=
  { threshold := 2, window := 10, cardinality := 10, reservoir_size := 10,
    timer_flush_min_max := false, map := [] }

/-- The scenario's key. -/
def key_m1 : String := "m1"

/-- One consider_counter event of the C1 scenario. -/
def c1_event : consider_event :=
  { op := METRIC_COUNTER, name := key_m1, parsed := c1_parsed, allocOk := true, now := 0,
    rand := 0 }

/-- The sampler after the three events. -/
def c1_final : sampler := run_events c1_sampler [c1_event, c1_event, c1_event]

/-- C1, counterexample.  With threshold 2 and three value-10 events on
the absent key m1, only the third (post-transition) event accumulates:
at the flush the bucket holds sum = 10 and count = 1, and the single
emitted line carries rate 1/count = 1 — not the claimed
0.3333333333333333 (= the shortest decimal of the double 1/3, which a
count of 3 would give). -/
theorem counter_flush_scenario_counterexample :
    hashmap_get c1_final.map key_m1 =
      some { sampling := true, last_window_count := 3, last_modified_at := 0, sum := 10,
             count := 1, type := METRIC_COUNTER, reservoir_index := 0, upper := 0, lower := 0,
             lower_sample_rate := 0, upper_sample_rate := 0, reservoir := [] } ∧
    (sampler_flush c1_final).1 = [⟨key_m1, 10, METRIC_COUNTER, some 1⟩] ∧
    (some (1 : ℚ) ≠ some (1 / 3 : ℚ) ∧
      some (1 : ℚ) ≠ some (3333333333333333 / 10000000000000000 : ℚ)) := by
  refine ⟨?_, ?_, by norm_num, by norm_num⟩ <;>
    norm_num +decide [c1_final, c1_sampler, c1_event, c1_parsed, key_m1, run_events,
      consider_step, sampler_consider_counter, hashmap_get, hashmap_put, hashmap_size,
      map_set, flag_incoming_metric, fresh_counter_bucket, presampling_weight,
      u64_add_double, sampler_flush, sampler_flush_callback, sampler_update_callback]

/-- C1, as amended.  With threshold 2, after the counter key m1 receives
exactly 3 events of value 10 with presampling 1 from an absent key, one
flush emits exactly one line for m1, `m1:10|c@1` (AVG = sum/count =
10/1, RATE = 1/count = 1/1: only the post-transition event accumulated),
and afterwards the bucket has sum = 0, count = 0, sampling = true. -/
theorem counter_flush_scenario_amended :
    (sampler_flush c1_final).1 = [⟨key_m1, 10, METRIC_COUNTER, some 1⟩] ∧
    hashmap_get (sampler_flush c1_final).2.map key_m1 =
      some { sampling := true, last_window_count := 0, last_modified_at := 0, sum := 0,
             count := 0, type := METRIC_COUNTER, reservoir_index := 0, upper := 0, lower := 0,
             lower_sample_rate := 0, upper_sample_rate := 0, reservoir := [] } := by
  constructor <;>
    norm_num +decide [c1_final, c1_sampler, c1_event, c1_parsed, key_m1, run_events,
      consider_step, sampler_consider_counter, hashmap_get, hashmap_put, hashmap_size,
      map_set, flag_incoming_metric, fresh_counter_bucket, presampling_weight,
      u64_add_double, sampler_flush, sampler_flush_callback, sampler_update_callback]

/-- Existing-bucket key of the C6 counterexample. -/
def key_g1 : String := "g1"

/-- New key of the C6 counterexample. -/
def key_g2 : String := "g2"

/-- A gauge bucket last modified at time 5. -/
def c6_bucket : sample_bucket := fresh_gauge_bucket METRIC_GAUGE 5

/-- A threshold-0 sampler holding that bucket. -/
def c6_sampler : sampler :=
  { threshold := 0, window := 1, cardinality := 10, reservoir_size := 10,
    timer_flush_min_max := false, map := [(key_g1, c6_bucket)] }

/-- The same sampler with an empty map. -/
def c6_empty : sampler := { c6_sampler with map := [] }

/-- A gauge record. -/
def c6_parsed : validate_parsed_result := ⟨4, METRIC_GAUGE, 1⟩

/-- C6, counterexample.  With threshold 0, `sampler_consider_gauge` does
return `SAMPLER_NOT_SAMPLING`, but not "without any further work": on
the existing bucket g1 it rewrites `last_modified_at` from 5 to the
call's time 9, and for the absent key g2 it allocates and inserts a
bucket (the map grows from empty to size 1). -/
theorem gauge_threshold_zero_counterexample :
    (sampler_consider_gauge c6_sampler key_g1 c6_parsed true 9).1 = SAMPLER_NOT_SAMPLING ∧
    hashmap_get c6_sampler.map key_g1 = some c6_bucket ∧
    c6_bucket.last_modified_at = 5 ∧
    hashmap_get (sampler_consider_gauge c6_sampler key_g1 c6_parsed true 9).2.map key_g1 =
      some { c6_bucket with last_modified_at := 9 } ∧
    ((9 : ℤ) ≠ 5) ∧
    (sampler_consider_gauge c6_empty key_g2 c6_parsed true 9).1 = SAMPLER_NOT_SAMPLING ∧
    hashmap_size c6_empty.map = 0 ∧
    hashmap_size (sampler_consider_gauge c6_empty key_g2 c6_parsed true 9).2.map = 1 := by
  refine ⟨?_, ?_, ?_, ?_, by norm_num, ?_, ?_, ?_⟩ <;>
    norm_num +decide [c6_sampler, c6_empty, c6_bucket, c6_parsed, key_g1, key_g2,
      sampler_consider_gauge, gauge_tail, hashmap_get, hashmap_put, hashmap_size, map_set,
      flag_incoming_metric, fresh_gauge_bucket, fresh_counter_bucket, u64_add_double]

/-- C6, as amended.  With threshold 0 (the unsigned threshold's only
value with `threshold <= 0`), `sampler_consider_gauge` returns
`SAMPLER_NOT_SAMPLING` without window counting, transition checking or
accumulation — but it still refreshes the bucket's `last_modified_at`
(and still creates and inserts a missing bucket).  Otherwise it
increments `last_window_count`, checks the sampling transition, and when
sampling accumulates `sum += value` and `count += 1`; the accumulation
never applies the `1/presampling_value` weight, whatever the record's
`presampling_value`. -/
theorem gauge_threshold_zero_amended (s : sampler) (name : String)
    (parsed : validate_parsed_result) (allocOk : Bool) (now : ℤ) (b : sample_bucket) :
    (s.threshold = 0 → parsed.type = METRIC_GAUGE → hashmap_get s.map name = some b →
      sampler_consider_gauge s name parsed allocOk now =
        (SAMPLER_NOT_SAMPLING,
          { s with map := map_set s.map name { b with last_modified_at := now } })) ∧
    (s.threshold = 0 → parsed.type = METRIC_GAUGE → hashmap_get s.map name = none →
      flag_incoming_metric s = false → allocOk = true →
      ((sampler_consider_gauge s name parsed allocOk now).1 = SAMPLER_NOT_SAMPLING ∧
        hashmap_get (sampler_consider_gauge s name parsed allocOk now).2.map name =
          some (fresh_gauge_bucket parsed.type now) ∧
        hashmap_size (sampler_consider_gauge s name parsed allocOk now).2.map =
          hashmap_size s.map + 1)) ∧
    (s.threshold ≠ 0 → parsed.type = METRIC_GAUGE → hashmap_get s.map name = some b →
      b.sampling = true →
      sampler_consider_gauge s name parsed allocOk now =
        (SAMPLER_SAMPLING,
          { s with map := map_set s.map name ({ b with
              last_modified_at := now,
              last_window_count := b.last_window_count + 1,
              sum := b.sum + parsed.value, count := b.count + 1 }) })) ∧
    (s.threshold ≠ 0 → parsed.type = METRIC_GAUGE → hashmap_get s.map name = some b →
      b.sampling = false → s.threshold < b.last_window_count + 1 →
      sampler_consider_gauge s name parsed allocOk now =
        (SAMPLER_SAMPLING,
          { s with map := map_set s.map name ({ b with
              last_modified_at := now,
              last_window_count := b.last_window_count + 1, sampling := true,
              sum := b.sum + parsed.value, count := b.count + 1 }) })) ∧
    (s.threshold ≠ 0 → parsed.type = METRIC_GAUGE → hashmap_get s.map name = some b →
      b.sampling = false → ¬(s.threshold < b.last_window_count + 1) →
      sampler_consider_gauge s name parsed allocOk now =
        (SAMPLER_NOT_SAMPLING,
          { s with map := map_set s.map name ({ b with
              last_modified_at := now,
              last_window_count := b.last_window_count + 1 }) })) := by
  refine ⟨fun h0 hty hget => ?_, fun h0 hty hget hflag halloc => ?_,
    fun h0 hty hget hsamp => ?_, fun h0 hty hget hsamp htr => ?_,
    fun h0 hty hget hsamp htr => ?_⟩
  · simp [sampler_consider_gauge, gauge_tail, hty, hget, h0]
  · simp [sampler_consider_gauge, gauge_tail, hty, hget, h0, hflag, halloc,
      hashmap_get, hashmap_put, hashmap_size, map_set, map_set_length,
      fresh_gauge_bucket, fresh_counter_bucket, Nat.add_comm]
  · simp [sampler_consider_gauge, gauge_tail, hty, hget, h0, hsamp, u64_add_double_one]
  · simp [sampler_consider_gauge, gauge_tail, hty, hget, h0, hsamp, htr, u64_add_double_one]
  · simp [sampler_consider_gauge, gauge_tail, hty, hget, h0, hsamp, htr]

/-- A nonnegative ordinal means the tag is one of the six known types. -/
theorem metric_ord_neg_iff (t : metric_type) : metric_ord t < 0 ↔ t = METRIC_UNKNOWN := by
  cases t <;> simp [metric_ord]

/-- Successful rate-suffix parse inverted: the suffix was `@` followed
by a nonempty remainder that `strtod` converts. -/
theorem parse_rate_suffix_eq_some (l : List Char) (p : ℚ)
    (h : parse_rate_suffix l = some p) :
    ∃ rateStr, l = '@' :: rateStr ∧ rateStr ≠ [] ∧ strtod rateStr = some p := by
  match l with
  | [] => exact Option.noConfusion h
  | c :: rateStr =>
    simp only [parse_rate_suffix] at h
    by_cases hc : c = '@'
    · subst hc
      by_cases he : rateStr = [] <;> simp_all
    · simp [hc] at h

/-- Successful validation inverted: the line has a last colon at a
positive index, a convertible value, a first pipe, a known type tag, and
either no second pipe (rate defaults to 1) or a well-formed `@RATE`
suffix. -/
theorem validate_some_inv (line : List Char) (r : validate_parsed_result)
    (h : validate_statsd line = some r) :
    ∃ ci pi, memrchr_idx ':' line = some ci ∧ 1 ≤ ci ∧
      ∃ v, strtod (line.drop (ci + 1)) = some v ∧
        memchr_idx '|' (line.drop (ci + 1)) = some pi ∧
        ((memchr_idx '|' ((line.drop (ci + 1)).drop (pi + 1)) = none ∧
          parse_stat_type ((line.drop (ci + 1)).drop (pi + 1)) ≠ METRIC_UNKNOWN ∧
          r = ⟨v, parse_stat_type ((line.drop (ci + 1)).drop (pi + 1)), 1⟩) ∨
        (∃ qi rateStr p,
          memchr_idx '|' ((line.drop (ci + 1)).drop (pi + 1)) = some qi ∧
          parse_stat_type (((line.drop (ci + 1)).drop (pi + 1)).take qi) ≠ METRIC_UNKNOWN ∧
          ((line.drop (ci + 1)).drop (pi + 1)).drop (qi + 1) = '@' :: rateStr ∧
          rateStr ≠ [] ∧ strtod rateStr = some p ∧
          r = ⟨v, parse_stat_type (((line.drop (ci + 1)).drop (pi + 1)).take qi), p⟩)) := by
  simp only [validate_statsd] at h
  rw [Option.bind_eq_some] at h
  obtain ⟨ci, hci, h⟩ := h
  by_cases hlt : ci < 1
  · rw [if_pos hlt] at h
    exact Option.noConfusion h
  rw [if_neg hlt] at h
  rw [Option.bind_eq_some] at h
  obtain ⟨v, hv, h⟩ := h
  rw [Option.bind_eq_some] at h
  obtain ⟨pi, hpi, h⟩ := h
  cases hqi : memchr_idx '|' ((line.drop (ci + 1)).drop (pi + 1)) with
  | none =>
    simp only [hqi] at h
    by_cases hty : metric_ord (parse_stat_type ((line.drop (ci + 1)).drop (pi + 1))) < 0
    · rw [if_pos hty] at h
      exact Option.noConfusion h
    · rw [if_neg hty] at h
      injection h with h
      refine ⟨ci, pi, hci, by omega, v, hv, hpi, Or.inl ⟨hqi, ?_, h.symm⟩⟩
      intro hu
      exact hty ((metric_ord_neg_iff _).mpr hu)
  | some qi =>
    simp only [hqi] at h
    by_cases hty :
        metric_ord (parse_stat_type (((line.drop (ci + 1)).drop (pi + 1)).take qi)) < 0
    · rw [if_pos hty] at h
      exact Option.noConfusion h
    · rw [if_neg hty] at h
      rw [Option.bind_eq_some] at h
      obtain ⟨p, hp, h⟩ := h
      obtain ⟨rateStr, hdrop, hne, hrate⟩ := parse_rate_suffix_eq_some _ _ hp
      injection h with h
      exact ⟨ci, pi, hci, by omega, v, hv, hpi,
        Or.inr ⟨qi, rateStr, p, hqi, fun hu => hty ((metric_ord_neg_iff _).mpr hu),
          hdrop, hne, hrate, h.symm⟩⟩

/-- C8.  `validate_statsd` returns a parse error for every input that
has no `:`; or an empty key before the chosen (last) `:`; or a value
`strtod` cannot convert; or no `|` after the value; or an unknown type
tag (with or without a second `|`); or a second `|` whose suffix is not
`@` followed by at least one character converting as a double. -/
theorem validate_reject_conditions (line : List Char) :
    (memrchr_idx ':' line = none → validate_statsd line = none) ∧
    (memrchr_idx ':' line = some 0 → validate_statsd line = none) ∧
    (∀ ci, memrchr_idx ':' line = some ci → strtod (line.drop (ci + 1)) = none →
      validate_statsd line = none) ∧
    (∀ ci, memrchr_idx ':' line = some ci → memchr_idx '|' (line.drop (ci + 1)) = none →
      validate_statsd line = none) ∧
    (∀ ci pi, memrchr_idx ':' line = some ci →
      memchr_idx '|' (line.drop (ci + 1)) = some pi →
      memchr_idx '|' ((line.drop (ci + 1)).drop (pi + 1)) = none →
      parse_stat_type ((line.drop (ci + 1)).drop (pi + 1)) = METRIC_UNKNOWN →
      validate_statsd line = none) ∧
    (∀ ci pi qi, memrchr_idx ':' line = some ci →
      memchr_idx '|' (line.drop (ci + 1)) = some pi →
      memchr_idx '|' ((line.drop (ci + 1)).drop (pi + 1)) = some qi →
      parse_stat_type (((line.drop (ci + 1)).drop (pi + 1)).take qi) = METRIC_UNKNOWN →
      validate_statsd line = none) ∧
    (∀ ci pi qi, memrchr_idx ':' line = some ci →
      memchr_idx '|' (line.drop (ci + 1)) = some pi →
      memchr_idx '|' ((line.drop (ci + 1)).drop (pi + 1)) = some qi →
      parse_rate_suffix (((line.drop (ci + 1)).drop (pi + 1)).drop (qi + 1)) = none →
      validate_statsd line = none) := by
  refine ⟨fun h1 => ?_, fun h1 => ?_, fun ci h1 h2 => ?_, fun ci h1 h2 => ?_,
    fun ci pi h1 h2 h3 h4 => ?_, fun ci pi qi h1 h2 h3 h4 => ?_,
    fun ci pi qi h1 h2 h3 h4 => ?_⟩
  · simp [validate_statsd, h1]
  · simp [validate_statsd, h1]
  · simp [validate_statsd, h1, h2]
  · cases hv : strtod (line.drop (ci + 1)) <;>
      simp [validate_statsd, h1, h2, hv]
  · simp only [validate_statsd, h1, Option.some_bind]
    by_cases hlt : ci < 1
    · rw [if_pos hlt]
    · rw [if_neg hlt]
      cases hv : strtod (line.drop (ci + 1)) with
      | none => simp only [hv, Option.none_bind]
      | some v =>
        simp only [hv, Option.some_bind, h2, h3, h4, metric_ord]
        norm_num
  · simp only [validate_statsd, h1, Option.some_bind]
    by_cases hlt : ci < 1
    · rw [if_pos hlt]
    · rw [if_neg hlt]
      cases hv : strtod (line.drop (ci + 1)) with
      | none => simp only [hv, Option.none_bind]
      | some v =>
        simp only [hv, Option.some_bind, h2, h3, h4, metric_ord]
        norm_num
  · simp only [validate_statsd, h1, Option.some_bind]
    by_cases hlt : ci < 1
    · rw [if_pos hlt]
    · rw [if_neg hlt]
      cases hv : strtod (line.drop (ci + 1)) with
      | none => simp only [hv, Option.none_bind]
      | some v =>
        simp only [hv, Option.some_bind, h2, h3]
        by_cases hty :
            metric_ord (parse_stat_type (((line.drop (ci + 1)).drop (pi + 1)).take qi)) < 0
        · rw [if_pos hty]
        · rw [if_neg hty, h4]
          simp only [Option.none_bind]

/-- C8, witness at `x:1|c|@` (second pipe present, empty rate): the
rate-suffix condition applies and the line is rejected. -/
theorem validate_reject_conditions_witness :
    ((memrchr_idx ':' (("x:1|c|@").data) = some 1 ∧
      memchr_idx '|' ((("x:1|c|@").data).drop 2) = some 1 ∧
      memchr_idx '|' (((("x:1|c|@").data).drop 2).drop 2) = some 1 ∧
      parse_rate_suffix ((((("x:1|c|@").data).drop 2).drop 2).drop 2) = none) ∧
     validate_statsd (("x:1|c|@").data) = none) :=
  ⟨⟨by decide, by decide, by decide, by decide⟩,
    (validate_reject_conditions (("x:1|c|@").data)).2.2.2.2.2.2 1 1 1
      (by decide) (by decide) (by decide) (by decide)⟩

/-- A line with an explicit `@0` rate. -/
def rate_zero_line : List Char := ("a:1|c|@0").data

/-- C7, counterexample.  `validate_statsd` accepts `a:1|c|@0`: `strtod`
converts the rate text `0` (err ≠ start), so the zero-value check does
not fire and the returned record carries `presampling_value = 0`, which
is not `> 0`. -/
theorem validate_rate_zero_counterexample :
    validate_statsd rate_zero_line = some ⟨1, METRIC_COUNTER, 0⟩ ∧
    ¬((0 : ℚ) > 0) := by
  refine ⟨?_, by norm_num⟩
  norm_num +decide [rate_zero_line, validate_statsd, parse_rate_suffix, strtod, memrchr_idx,
    memchr_idx, take_digits, drop_space, digits_to_nat, digit_val, pow10, strtod_exp,
    strtod_exp_body, parse_stat_type, c_isdigit, c_isspace, metric_ord, Option.bind]

/-- C7, as amended.  For every input line on which `validate_statsd`
succeeds, the returned record has a known type (≠ Unknown), and
`presampling_value` is the default 1.0 whenever the line has no second
`|` (hence no `|@RATE` suffix) after the value separator.  (An explicit
suffix may carry any converted value, including 0 or negatives.) -/
theorem validate_success_fields (line : List Char) (r : validate_parsed_result)
    (h : validate_statsd line = some r) :
    r.type ≠ METRIC_UNKNOWN ∧
    (∀ ci pi, memrchr_idx ':' line = some ci →
      memchr_idx '|' (line.drop (ci + 1)) = some pi →
      memchr_idx '|' ((line.drop (ci + 1)).drop (pi + 1)) = none →
      r.presampling_value = 1) := by
  obtain ⟨ci, pi, hci, hge, v, hv, hpi, hrest⟩ := validate_some_inv line r h
  constructor
  · rcases hrest with ⟨hqn, hty, rfl⟩ | ⟨qi, rateStr, p, hqi, hty, hdrop, hne, hrate, rfl⟩ <;>
      simpa using hty
  · intro ci' pi' hci' hpi' hnone
    rw [hci'] at hci
    injection hci with hc
    subst hc
    rw [hpi'] at hpi
    injection hpi with hp
    subst hp
    rcases hrest with ⟨hqn, hty, rfl⟩ | ⟨qi, rateStr, p, hqi, hty, hdrop, hne, hrate, rfl⟩
    · rfl
    · rw [hnone] at hqi
      exact Option.noConfusion hqi

/-- C7's witness at the tagged test line: validation succeeds, the type
is known, and with no `|@RATE` suffix the rate is the default 1. -/
theorem validate_success_fields_witness :
    validate_statsd tagged_line = some ⟨42, METRIC_TIMER, 1⟩ ∧
    ((⟨42, METRIC_TIMER, 1⟩ : validate_parsed_result).type ≠ METRIC_UNKNOWN ∧
      (∀ ci pi, memrchr_idx ':' tagged_line = some ci →
        memchr_idx '|' (tagged_line.drop (ci + 1)) = some pi →
        memchr_idx '|' ((tagged_line.drop (ci + 1)).drop (pi + 1)) = none →
        (⟨42, METRIC_TIMER, 1⟩ : validate_parsed_result).presampling_value = 1)) := by
  have h : validate_statsd tagged_line = some ⟨42, METRIC_TIMER, 1⟩ := by
    norm_num +decide [tagged_line, validate_statsd, parse_rate_suffix, strtod, memrchr_idx,
      memchr_idx, take_digits, drop_space, digits_to_nat, digit_val, pow10, strtod_exp,
      strtod_exp_body, parse_stat_type, c_isdigit, c_isspace, metric_ord, Option.bind]
  exact ⟨h, validate_success_fields tagged_line _ h⟩

/-! Sampling-mode preservation of the consider operations (no code
path of sampling.c clears `bucket->sampling`; only the flush/update
rollover does). -/

/-- The reservoir step never touches the sampling flag. -/
theorem timer_reservoir_sampling (t rand : ℕ) (v p : ℚ) (b : sample_bucket) :
    ((timer_reservoir t rand v p b).2).sampling = b.sampling := by
  simp only [timer_reservoir]
  split_ifs <;> rfl

/-- The lower-extremum step never touches the sampling flag. -/
theorem timer_lower_sampling (t rand : ℕ) (v p : ℚ) (b : sample_bucket) :
    ((timer_lower t rand v p b).2).sampling = b.sampling := by
  simp only [timer_lower]
  split_ifs <;> simp [timer_reservoir_sampling]

/-- The timer body never touches the sampling flag. -/
theorem timer_body_sampling (t rand : ℕ) (v p : ℚ) (b : sample_bucket) :
    ((timer_body t rand v p b).2).sampling = b.sampling := by
  simp only [timer_body]
  split_ifs <;> simp [timer_lower_sampling]

/-- An existing-bucket timer call keeps a sampling bucket sampling. -/
theorem timer_on_existing_sampling (t rand : ℕ) (now : ℤ) (parsed : validate_parsed_result)
    (b0 : sample_bucket) (hs : b0.sampling = true) :
    ((timer_on_existing t rand now parsed b0).2).sampling = true := by
  simp only [timer_on_existing, hs]
  simp [timer_body_sampling, hs]

/-- A key that misses differs from one that hits. -/
theorem get_ne_of_get_none (m : BucketMap) (n k : String) (b : sample_bucket)
    (hn : hashmap_get m n = none) (hk : hashmap_get m k = some b) : n ≠ k := by
  intro h
  subst h
  rw [hn] at hk
  exact Option.noConfusion hk

/-- `sampler_consider_counter` keeps every sampling bucket sampling. -/
theorem counter_preserves_sampling (s : sampler) (name : String)
    (parsed : validate_parsed_result) (allocOk : Bool) (now : ℤ) (k : String)
    (bk : sample_bucket) (hget : hashmap_get s.map k = some bk) (hs : bk.sampling = true) :
    ∃ b2, hashmap_get (sampler_consider_counter s name parsed allocOk now).2.map k = some b2 ∧
      b2.sampling = true := by
  by_cases hty : parsed.type ≠ METRIC_COUNTER
  · exact ⟨bk, by simp [sampler_consider_counter, hty, hget], hs⟩
  · rw [not_not] at hty
    cases hgn : hashmap_get s.map name with
    | none =>
      have hne : name ≠ k := get_ne_of_get_none s.map name k bk hgn hget
      by_cases hf : flag_incoming_metric s
      · exact ⟨bk, by simp [sampler_consider_counter, hty, hgn, hf, hget], hs⟩
      · cases allocOk with
        | false => exact ⟨bk, by simp [sampler_consider_counter, hty, hgn, hf, hget], hs⟩
        | true =>
          refine ⟨bk, ?_, hs⟩
          simp [sampler_consider_counter, hty, hgn, hf, hashmap_put, hashmap_get, hne, hget]
    | some b0 =>
      by_cases hkn : name = k
      · subst hkn
        rw [hgn] at hget
        injection hget with hb
        subst hb
        refine ⟨{ b0 with
            last_window_count := b0.last_window_count + 1, last_modified_at := now,
            sum := b0.sum + parsed.value * presampling_weight parsed.presampling_value,
            count := u64_add_double b0.count (presampling_weight parsed.presampling_value) },
          ?_, hs⟩
        simp [sampler_consider_counter, hty, hgn, hs, hashmap_get_map_set]
      · refine ⟨bk, ?_, hs⟩
        simp only [sampler_consider_counter, hty, ite_not, ne_eq, not_true_eq_false,
          if_false, hgn]
        split_ifs <;>
          simp [hashmap_get_map_set_other _ _ _ _ hkn, hget]

/-- `sampler_consider_timer` keeps every sampling bucket sampling. -/
theorem timer_preserves_sampling (s : sampler) (name : String)
    (parsed : validate_parsed_result) (allocOk : Bool) (now : ℤ) (rand : ℕ) (k : String)
    (bk : sample_bucket) (hget : hashmap_get s.map k = some bk) (hs : bk.sampling = true) :
    ∃ b2, hashmap_get (sampler_consider_timer s name parsed allocOk now rand).2.map k =
      some b2 ∧ b2.sampling = true := by
  by_cases hty : parsed.type ≠ METRIC_TIMER
  · exact ⟨bk, by simp [sampler_consider_timer, hty, hget], hs⟩
  · rw [not_not] at hty
    cases hgn : hashmap_get s.map name with
    | none =>
      have hne : name ≠ k := get_ne_of_get_none s.map name k bk hgn hget
      by_cases hf : flag_incoming_metric s
      · exact ⟨bk, by simp [sampler_consider_timer, hty, hgn, hf, hget], hs⟩
      · cases allocOk with
        | false => exact ⟨bk, by simp [sampler_consider_timer, hty, hgn, hf, hget], hs⟩
        | true =>
          refine ⟨bk, ?_, hs⟩
          simp [sampler_consider_timer, hty, hgn, hf, hashmap_put, hashmap_get, hne, hget]
    | some b0 =>
      by_cases hkn : name = k
      · subst hkn
        rw [hgn] at hget
        injection hget with hb
        subst hb
        refine ⟨(timer_on_existing s.threshold rand now parsed b0).2, ?_,
          timer_on_existing_sampling _ _ _ _ _ hs⟩
        simp [sampler_consider_timer, hty, hgn, hashmap_get_map_set]
      · refine ⟨bk, ?_, hs⟩
        simp [sampler_consider_timer, hty, hgn,
          hashmap_get_map_set_other _ _ _ _ hkn, hget]

/-- The gauge tail leaves other keys' buckets alone. -/
theorem gauge_tail_get_other (s : sampler) (name : String) (parsed : validate_parsed_result)
    (now : ℤ) (m : BucketMap) (b0 : sample_bucket) (k : String) (hne : name ≠ k) :
    hashmap_get (gauge_tail s name parsed now m b0).2.map k = hashmap_get m k := by
  simp only [gauge_tail]
  split_ifs <;> simp [hashmap_get_map_set_other _ _ _ _ hne]

/-- The gauge tail keeps a sampling bucket sampling. -/
theorem gauge_tail_preserves_sampling (s : sampler) (name : String)
    (parsed : validate_parsed_result) (now : ℤ) (m : BucketMap) (b0 : sample_bucket)
    (hm : (hashmap_get m name).isSome) (hs : b0.sampling = true) :
    ∃ b2, hashmap_get (gauge_tail s name parsed now m b0).2.map name = some b2 ∧
      b2.sampling = true := by
  by_cases h0 : s.threshold = 0
  · refine ⟨{ b0 with last_modified_at := now }, ?_, hs⟩
    simp [gauge_tail, h0, hashmap_get_map_set, hm]
  · refine ⟨{ b0 with
        last_modified_at := now,
        last_window_count := b0.last_window_count + 1,
        sum := b0.sum + parsed.value, count := u64_add_double b0.count 1 }, ?_, hs⟩
    simp [gauge_tail, h0, hs, hashmap_get_map_set, hm]

/-- `sampler_consider_gauge` keeps every sampling bucket sampling. -/
theorem gauge_preserves_sampling (s : sampler) (name : String)
    (parsed : validate_parsed_result) (allocOk : Bool) (now : ℤ) (k : String)
    (bk : sample_bucket) (hget : hashmap_get s.map k = some bk) (hs : bk.sampling = true) :
    ∃ b2, hashmap_get (sampler_consider_gauge s name parsed allocOk now).2.map k = some b2 ∧
      b2.sampling = true := by
  by_cases hty : parsed.type ≠ METRIC_GAUGE
  · exact ⟨bk, by simp [sampler_consider_gauge, hty, hget], hs⟩
  · rw [not_not] at hty
    cases hgn : hashmap_get s.map name with
    | none =>
      have hne : name ≠ k := get_ne_of_get_none s.map name k bk hgn hget
      by_cases hf : flag_incoming_metric s
      · exact ⟨bk, by simp [sampler_consider_gauge, hty, hgn, hf, hget], hs⟩
      · cases allocOk with
        | false => exact ⟨bk, by simp [sampler_consider_gauge, hty, hgn, hf, hget], hs⟩
        | true =>
          have h1 : sampler_consider_gauge s name parsed true now =
              gauge_tail s name parsed now
                (hashmap_put s.map name (fresh_gauge_bucket parsed.type now))
                (fresh_gauge_bucket parsed.type now) := by
            simp [sampler_consider_gauge, hty, hgn, hf]
          rw [h1, gauge_tail_get_other _ _ _ _ _ _ _ hne]
          refine ⟨bk, ?_, hs⟩
          simp [hashmap_put, hashmap_get, hne, hget]
    | some b0 =>
      have h1 : sampler_consider_gauge s name parsed allocOk now =
          gauge_tail s name parsed now s.map b0 := by
        simp [sampler_consider_gauge, hty, hgn]
      by_cases hkn : name = k
      · subst hkn
        rw [hgn] at hget
        injection hget with hb
        subst hb
        rw [h1]
        exact gauge_tail_preserves_sampling s name parsed now s.map b0 (by simp [hgn]) hs
      · rw [h1, gauge_tail_get_other _ _ _ _ _ _ _ hkn]
        exact ⟨bk, hget, hs⟩

/-- The expiry sweep keeps every sampling bucket, unchanged. -/
theorem expiry_keeps_sampling (m : BucketMap) (ttl now : ℤ) (k : String)
    (b : sample_bucket) (hget : hashmap_get m k = some b) (hs : b.sampling = true) :
    hashmap_get (expiry_callback m ttl now) k = some b := by
  induction m with
  | nil => exact Option.noConfusion hget
  | cons e rest ih =>
    simp only [hashmap_get] at hget
    by_cases he : e.1 = k
    · rw [if_pos he] at hget
      injection hget with hb
      subst hb
      simp [expiry_callback, List.filter, hs, hashmap_get, he]
    · rw [if_neg he] at hget
      by_cases hp : (e.2.sampling || !(decide (ttl < now - e.2.last_modified_at))) = true
      · simp only [expiry_callback, List.filter, hp]
        simpa [hashmap_get, he] using ih hget
      · simp only [expiry_callback, List.filter] at *
        rw [Bool.not_eq_true] at hp
        rw [hp]
        exact ih hget

/-- C4.  At a flush boundary each bucket rolls over: a window count
above threshold turns sampling on; a sampling bucket at or below
threshold leaves sampling and resets its reservoir index; the window
count is reset unconditionally.  Outside such a boundary no
consider-call and no expiry sweep ever takes a bucket out of sampling
mode: a sampling bucket survives both with `sampling` still true. -/
theorem window_rollover_sampling_exit (t : ℕ) (b : sample_bucket) (s : sampler)
    (e : consider_event) (k : String) (bk : sample_bucket) (m : BucketMap) (ttl now : ℤ) :
    (t < b.last_window_count →
      sampler_update_callback t b = { b with sampling := true, last_window_count := 0 }) ∧
    (b.last_window_count ≤ t → b.sampling = true →
      sampler_update_callback t b =
        { b with sampling := false, reservoir_index := 0, last_window_count := 0 }) ∧
    (b.last_window_count ≤ t → b.sampling = false →
      sampler_update_callback t b = { b with last_window_count := 0 }) ∧
    (hashmap_get s.map k = some bk → bk.sampling = true →
      ∃ bk2, hashmap_get (consider_step s e).2.map k = some bk2 ∧ bk2.sampling = true) ∧
    (hashmap_get m k = some bk → bk.sampling = true →
      hashmap_get (expiry_callback m ttl now) k = some bk) := by
  refine ⟨fun h1 => ?_, fun h1 h2 => ?_, fun h1 h2 => ?_, fun hget hs => ?_,
    expiry_keeps_sampling m ttl now k bk⟩
  · simp [sampler_update_callback, h1]
  · simp [sampler_update_callback, Nat.not_lt.mpr h1, h1, h2]
  · simp [sampler_update_callback, Nat.not_lt.mpr h1, h2]
  · obtain ⟨op, nm, pr, al, nw, rd⟩ := e
    cases op
    case METRIC_COUNTER => exact counter_preserves_sampling s nm pr al nw k bk hget hs
    case METRIC_TIMER => exact timer_preserves_sampling s nm pr al nw rd k bk hget hs
    case METRIC_GAUGE => exact gauge_preserves_sampling s nm pr al nw k bk hget hs
    all_goals exact ⟨bk, hget, hs⟩

/-- An unflagged admission means the map is strictly under the cap. -/
theorem flag_false_lt (s : sampler) (hf : flag_incoming_metric s = false) :
    (hashmap_size s.map : ℤ) < s.cardinality := by
  simpa [flag_incoming_metric, not_le] using hf

/-- One counter call leaves the map size unchanged, or grows it by one
only when admission was not flagged; the configured cardinality is
untouched. -/
theorem counter_map_growth (s : sampler) (name : String) (parsed : validate_parsed_result)
    (allocOk : Bool) (now : ℤ) :
    (sampler_consider_counter s name parsed allocOk now).2.cardinality = s.cardinality ∧
    (hashmap_size (sampler_consider_counter s name parsed allocOk now).2.map =
        hashmap_size s.map ∨
      (flag_incoming_metric s = false ∧
        hashmap_size (sampler_consider_counter s name parsed allocOk now).2.map =
          hashmap_size s.map + 1)) := by
  by_cases hty : parsed.type ≠ METRIC_COUNTER
  · simp [sampler_consider_counter, hty]
  · rw [not_not] at hty
    cases hgn : hashmap_get s.map name with
    | none =>
      by_cases hf : flag_incoming_metric s
      · simp [sampler_consider_counter, hty, hgn, hf]
      · cases allocOk with
        | false => simp [sampler_consider_counter, hty, hgn, hf]
        | true =>
          refine ⟨by simp [sampler_consider_counter, hty, hgn, hf], Or.inr ⟨by simp [hf], ?_⟩⟩
          simp [sampler_consider_counter, hty, hgn, hf, hashmap_put, hashmap_size,
            Nat.add_comm]
    | some b0 =>
      constructor
      · simp only [sampler_consider_counter, hty, ite_not, ne_eq, not_true_eq_false,
          if_false, hgn]
        split_ifs <;> rfl
      · left
        simp only [sampler_consider_counter, hty, ite_not, ne_eq, not_true_eq_false,
          if_false, hgn]
        split_ifs <;> simp [hashmap_size_map_set]

/-- One timer call leaves the map size unchanged, or grows it by one
only when admission was not flagged. -/
theorem timer_map_growth (s : sampler) (name : String) (parsed : validate_parsed_result)
    (allocOk : Bool) (now : ℤ) (rand : ℕ) :
    (sampler_consider_timer s name parsed allocOk now rand).2.cardinality = s.cardinality ∧
    (hashmap_size (sampler_consider_timer s name parsed allocOk now rand).2.map =
        hashmap_size s.map ∨
      (flag_incoming_metric s = false ∧
        hashmap_size (sampler_consider_timer s name parsed allocOk now rand).2.map =
          hashmap_size s.map + 1)) := by
  by_cases hty : parsed.type ≠ METRIC_TIMER
  · simp [sampler_consider_timer, hty]
  · rw [not_not] at hty
    cases hgn : hashmap_get s.map name with
    | none =>
      by_cases hf : flag_incoming_metric s
      · simp [sampler_consider_timer, hty, hgn, hf]
      · cases allocOk with
        | false => simp [sampler_consider_timer, hty, hgn, hf]
        | true =>
          refine ⟨by simp [sampler_consider_timer, hty, hgn, hf], Or.inr ⟨by simp [hf], ?_⟩⟩
          simp [sampler_consider_timer, hty, hgn, hf, hashmap_put, hashmap_size,
            Nat.add_comm]
    | some b0 =>
      refine ⟨by simp [sampler_consider_timer, hty, hgn], Or.inl ?_⟩
      simp [sampler_consider_timer, hty, hgn, hashmap_size_map_set]

/-- The gauge tail never changes the map's size or the config. -/
theorem gauge_tail_map_size (s : sampler) (name : String) (parsed : validate_parsed_result)
    (now : ℤ) (m : BucketMap) (b0 : sample_bucket) :
    (gauge_tail s name parsed now m b0).2.cardinality = s.cardinality ∧
    hashmap_size (gauge_tail s name parsed now m b0).2.map = hashmap_size m := by
  simp only [gauge_tail]
  split_ifs <;> simp [hashmap_size_map_set]

/-- One gauge call leaves the map size unchanged, or grows it by one
only when admission was not flagged. -/
theorem gauge_map_growth (s : sampler) (name : String) (parsed : validate_parsed_result)
    (allocOk : Bool) (now : ℤ) :
    (sampler_consider_gauge s name parsed allocOk now).2.cardinality = s.cardinality ∧
    (hashmap_size (sampler_consider_gauge s name parsed allocOk now).2.map =
        hashmap_size s.map ∨
      (flag_incoming_metric s = false ∧
        hashmap_size (sampler_consider_gauge s name parsed allocOk now).2.map =
          hashmap_size s.map + 1)) := by
  by_cases hty : parsed.type ≠ METRIC_GAUGE
  · simp [sampler_consider_gauge, hty]
  · rw [not_not] at hty
    cases hgn : hashmap_get s.map name with
    | none =>
      by_cases hf : flag_incoming_metric s
      · simp [sampler_consider_gauge, hty, hgn, hf]
      · cases allocOk with
        | false => simp [sampler_consider_gauge, hty, hgn, hf]
        | true =>
          have h1 : sampler_consider_gauge s name parsed true now =
              gauge_tail s name parsed now
                (hashmap_put s.map name (fresh_gauge_bucket parsed.type now))
                (fresh_gauge_bucket parsed.type now) := by
            simp [sampler_consider_gauge, hty, hgn, hf]
          rw [h1]
          obtain ⟨hc, hsz⟩ := gauge_tail_map_size s name parsed now
            (hashmap_put s.map name (fresh_gauge_bucket parsed.type now))
            (fresh_gauge_bucket parsed.type now)
          refine ⟨hc, Or.inr ⟨by simp [hf], ?_⟩⟩
          rw [hsz]
          simp [hashmap_put, hashmap_size, Nat.add_comm]
    | some b0 =>
      have h1 : sampler_consider_gauge s name parsed allocOk now =
          gauge_tail s name parsed now s.map b0 := by
        simp [sampler_consider_gauge, hty, hgn]
      rw [h1]
      obtain ⟨hc, hsz⟩ := gauge_tail_map_size s name parsed now s.map b0
      exact ⟨hc, Or.inl hsz⟩

/-- One consider-step keeps `size ≤ cardinality`. -/
theorem consider_step_size (s : sampler) (e : consider_event)
    (h : (hashmap_size s.map : ℤ) ≤ s.cardinality) :
    (consider_step s e).2.cardinality = s.cardinality ∧
    (hashmap_size (consider_step s e).2.map : ℤ) ≤ s.cardinality := by
  obtain ⟨op, nm, pr, al, nw, rd⟩ := e
  cases op
  case METRIC_COUNTER =>
    obtain ⟨hc, hsz⟩ := counter_map_growth s nm pr al nw
    refine ⟨hc, ?_⟩
    rcases hsz with hsz | ⟨hf, hsz⟩
    · rw [show (consider_step s ⟨METRIC_COUNTER, nm, pr, al, nw, rd⟩).2.map =
          (sampler_consider_counter s nm pr al nw).2.map from rfl, hsz]
      exact h
    · have hlt := flag_false_lt s hf
      rw [show (consider_step s ⟨METRIC_COUNTER, nm, pr, al, nw, rd⟩).2.map =
          (sampler_consider_counter s nm pr al nw).2.map from rfl, hsz]
      push_cast
      omega
  case METRIC_TIMER =>
    obtain ⟨hc, hsz⟩ := timer_map_growth s nm pr al nw rd
    refine ⟨hc, ?_⟩
    rcases hsz with hsz | ⟨hf, hsz⟩
    · rw [show (consider_step s ⟨METRIC_TIMER, nm, pr, al, nw, rd⟩).2.map =
          (sampler_consider_timer s nm pr al nw rd).2.map from rfl, hsz]
      exact h
    · have hlt := flag_false_lt s hf
      rw [show (consider_step s ⟨METRIC_TIMER, nm, pr, al, nw, rd⟩).2.map =
          (sampler_consider_timer s nm pr al nw rd).2.map from rfl, hsz]
      push_cast
      omega
  case METRIC_GAUGE =>
    obtain ⟨hc, hsz⟩ := gauge_map_growth s nm pr al nw
    refine ⟨hc, ?_⟩
    rcases hsz with hsz | ⟨hf, hsz⟩
    · rw [show (consider_step s ⟨METRIC_GAUGE, nm, pr, al, nw, rd⟩).2.map =
          (sampler_consider_gauge s nm pr al nw).2.map from rfl, hsz]
      exact h
    · have hlt := flag_false_lt s hf
      rw [show (consider_step s ⟨METRIC_GAUGE, nm, pr, al, nw, rd⟩).2.map =
          (sampler_consider_gauge s nm pr al nw).2.map from rfl, hsz]
      push_cast
      omega
  all_goals exact ⟨rfl, h⟩

/-- Any sequence of consider-calls keeps `size ≤ cardinality`. -/
theorem run_events_size (evs : List consider_event) (s : sampler)
    (h : (hashmap_size s.map : ℤ) ≤ s.cardinality) :
    (run_events s evs).cardinality = s.cardinality ∧
    (hashmap_size (run_events s evs).map : ℤ) ≤ s.cardinality := by
  induction evs generalizing s with
  | nil => exact ⟨rfl, h⟩
  | cons e rest ih =>
    obtain ⟨hc, hsz⟩ := consider_step_size s e h
    obtain ⟨hc2, hsz2⟩ := ih (consider_step s e).2 (by rw [hc]; exact hsz)
    rw [run_events]
    exact ⟨by rw [hc2, hc], by rw [← hc]; exact hsz2⟩

/-- C3.  For every sequence of consider-calls started from an empty map
the map's size never exceeds the configured cardinality; any consider
call for an absent key with `map.size >= cardinality` returns
`SAMPLER_FLAGGED` with the sampler unchanged (nothing inserted); and a
memory-allocation failure for a new bucket likewise returns
`SAMPLER_FLAGGED` without inserting. -/
theorem cardinality_cap_invariant (t : ℕ) (w card rs : ℤ) (tfm : Bool)
    (evs : List consider_event) (s : sampler) (name : String)
    (parsed : validate_parsed_result) (allocOk : Bool) (now : ℤ) (rand : ℕ) :
    (0 ≤ card →
      (hashmap_size (run_events
        { threshold := t, window := w, cardinality := card, reservoir_size := rs,
          timer_flush_min_max := tfm, map := [] } evs).map : ℤ) ≤ card) ∧
    (hashmap_get s.map name = none → flag_incoming_metric s = true →
      parsed.type = METRIC_COUNTER →
      sampler_consider_counter s name parsed allocOk now = (SAMPLER_FLAGGED, s)) ∧
    (hashmap_get s.map name = none → flag_incoming_metric s = true →
      parsed.type = METRIC_TIMER →
      sampler_consider_timer s name parsed allocOk now rand = (SAMPLER_FLAGGED, s)) ∧
    (hashmap_get s.map name = none → flag_incoming_metric s = true →
      parsed.type = METRIC_GAUGE →
      sampler_consider_gauge s name parsed allocOk now = (SAMPLER_FLAGGED, s)) ∧
    (hashmap_get s.map name = none → flag_incoming_metric s = false → allocOk = false →
      parsed.type = METRIC_COUNTER →
      sampler_consider_counter s name parsed allocOk now = (SAMPLER_FLAGGED, s)) ∧
    (hashmap_get s.map name = none → flag_incoming_metric s = false → allocOk = false →
      parsed.type = METRIC_TIMER →
      sampler_consider_timer s name parsed allocOk now rand = (SAMPLER_FLAGGED, s)) ∧
    (hashmap_get s.map name = none → flag_incoming_metric s = false → allocOk = false →
      parsed.type = METRIC_GAUGE →
      sampler_consider_gauge s name parsed allocOk now = (SAMPLER_FLAGGED, s)) := by
  refine ⟨fun hcard => ?_, fun hgn hf hty => ?_, fun hgn hf hty => ?_, fun hgn hf hty => ?_,
    fun hgn hf ha hty => ?_, fun hgn hf ha hty => ?_, fun hgn hf ha hty => ?_⟩
  · exact (run_events_size evs _ (by simpa [hashmap_size] using hcard)).2
  · simp [sampler_consider_counter, hty, hgn, hf]
  · simp [sampler_consider_timer, hty, hgn, hf]
  · simp [sampler_consider_gauge, hty, hgn, hf]
  · simp [sampler_consider_counter, hty, hgn, hf, ha]
  · simp [sampler_consider_timer, hty, hgn, hf, ha]
  · simp [sampler_consider_gauge, hty, hgn, hf, ha]

/-- The two float.h sentinels are ordered. -/
theorem dblMin_lt_dblMax : dblMin < dblMax := by
  norm_num [dblMin, dblMax]

/-- The reservoir step never touches the extrema. -/
theorem timer_reservoir_extrema (t rand : ℕ) (v p : ℚ) (b : sample_bucket) :
    ((timer_reservoir t rand v p b).2).upper = b.upper ∧
    ((timer_reservoir t rand v p b).2).lower = b.lower := by
  simp only [timer_reservoir]
  split_ifs <;> exact ⟨rfl, rfl⟩

/-- A value above `upper` records the rate and either absorbs into a
still-sentinel `upper` or displaces the old `upper` into the lower /
reservoir path. -/
theorem timer_body_upper_hit (t rand : ℕ) (v p : ℚ) (b : sample_bucket) (h : b.upper < v) :
    timer_body t rand v p b =
      (if b.upper = dblMin
       then (SAMPLER_SAMPLING, { b with upper_sample_rate := p, upper := v })
       else timer_lower t rand b.upper p { b with upper_sample_rate := p, upper := v }) := by
  simp only [timer_body]
  rw [if_pos h]
  split_ifs with h1 h2 <;> simp_all

/-- A value not above `upper` goes straight to the lower step. -/
theorem timer_body_upper_miss (t rand : ℕ) (v p : ℚ) (b : sample_bucket)
    (h : ¬b.upper < v) : timer_body t rand v p b = timer_lower t rand v p b := by
  simp only [timer_body]
  rw [if_neg h]

/-- A value below `lower` records the rate and either absorbs into a
still-sentinel `lower` or displaces the old `lower` into the reservoir. -/
theorem timer_lower_hit (t rand : ℕ) (v p : ℚ) (b : sample_bucket) (h : v < b.lower) :
    timer_lower t rand v p b =
      (if b.lower = dblMax
       then (SAMPLER_SAMPLING, { b with lower_sample_rate := p, lower := v })
       else timer_reservoir t rand b.lower p { b with lower_sample_rate := p, lower := v }) := by
  simp only [timer_lower]
  rw [if_pos h]
  split_ifs with h1 h2 <;> simp_all

/-- A value not below `lower` goes straight to the reservoir. -/
theorem timer_lower_miss (t rand : ℕ) (v p : ℚ) (b : sample_bucket)
    (h : ¬v < b.lower) : timer_lower t rand v p b = timer_reservoir t rand v p b := by
  simp only [timer_lower]
  rw [if_neg h]

/-- On a bucket already in sampling mode, the existing-bucket branch is
the window increment followed by the sampling body. -/
theorem timer_on_existing_sampling_eq (t rand : ℕ) (now : ℤ)
    (parsed : validate_parsed_result) (b : sample_bucket) (hs : b.sampling = true) :
    timer_on_existing t rand now parsed b =
      timer_body t rand parsed.value parsed.presampling_value
        { b with last_window_count := b.last_window_count + 1, last_modified_at := now } := by
  simp [timer_on_existing, hs]

/-- First in-bounds value on a fresh sampling bucket: it becomes
`upper`; `lower` stays sentinel. -/
theorem timer_body_fresh (t rand : ℕ) (v p : ℚ) (b : sample_bucket)
    (hu : b.upper = dblMin) (hl : b.lower = dblMax) (hv : dblMin < v) :
    ((timer_body t rand v p b).2).sampling = b.sampling ∧
    ((timer_body t rand v p b).2).upper = v ∧
    ((timer_body t rand v p b).2).lower = dblMax := by
  rw [timer_body_upper_hit t rand v p b (by rw [hu]; exact hv)]
  rw [if_pos hu]
  exact ⟨rfl, rfl, hl⟩

/-- Second value: the extrema become max and min of the two. -/
theorem timer_body_second (t rand : ℕ) (v p : ℚ) (b : sample_bucket) (w : ℚ)
    (hu : b.upper = w) (hl : b.lower = dblMax)
    (hw1 : dblMin < w) (hw2 : w < dblMax) (hv1 : dblMin < v) (hv2 : v < dblMax) :
    ((timer_body t rand v p b).2).sampling = b.sampling ∧
    ((timer_body t rand v p b).2).upper = max w v ∧
    ((timer_body t rand v p b).2).lower = min w v := by
  by_cases h1 : w < v
  · rw [timer_body_upper_hit t rand v p b (by rw [hu]; exact h1)]
    rw [if_neg (by rw [hu]; exact ne_of_gt hw1)]
    rw [timer_lower_hit t rand b.upper p _
      (show b.upper <
          ({ b with upper_sample_rate := p, upper := v } : sample_bucket).lower from
        by rw [hu, show ({ b with upper_sample_rate := p, upper := v } :
          sample_bucket).lower = b.lower from rfl, hl]; exact hw2)]
    rw [if_pos (show ({ b with upper_sample_rate := p, upper := v } :
      sample_bucket).lower = dblMax from hl)]
    refine ⟨rfl, ?_, ?_⟩
    · simp [max_eq_right (le_of_lt h1)]
    · simp [hu, min_eq_left (le_of_lt h1)]
  · rw [timer_body_upper_miss t rand v p b (by rw [hu]; exact h1)]
    rw [timer_lower_hit t rand v p b (by rw [hl]; exact hv2)]
    rw [if_pos hl]
    refine ⟨rfl, ?_, ?_⟩
    · simp [hu, max_eq_left (not_lt.mp h1)]
    · simp [min_eq_right (not_lt.mp h1)]

/-- With both extrema set, one step updates them to max/min with the
new value. -/
theorem timer_body_both (t rand : ℕ) (v p : ℚ) (b : sample_bucket) (M m : ℚ)
    (hu : b.upper = M) (hl : b.lower = m)
    (hmM : m ≤ M) (hm1 : dblMin < m) (hM2 : M < dblMax)
    (hv1 : dblMin < v) (hv2 : v < dblMax) :
    ((timer_body t rand v p b).2).sampling = b.sampling ∧
    ((timer_body t rand v p b).2).upper = max M v ∧
    ((timer_body t rand v p b).2).lower = min m v := by
  by_cases h1 : M < v
  · rw [timer_body_upper_hit t rand v p b (by rw [hu]; exact h1)]
    rw [if_neg (by rw [hu]; exact ne_of_gt (lt_of_lt_of_le hm1 hmM))]
    rw [timer_lower_miss t rand b.upper p _
      (show ¬b.upper <
          ({ b with upper_sample_rate := p, upper := v } : sample_bucket).lower from
        by rw [hu, show ({ b with upper_sample_rate := p, upper := v } :
          sample_bucket).lower = b.lower from rfl, hl]; exact not_lt.mpr hmM)]
    obtain ⟨hru, hrl⟩ := timer_reservoir_extrema t rand b.upper p
      { b with upper_sample_rate := p, upper := v }
    refine ⟨timer_reservoir_sampling _ _ _ _ _, ?_, ?_⟩
    · rw [hru]
      simp [max_eq_right (le_of_lt h1)]
    · rw [hrl]
      simp [hl, min_eq_left (le_of_lt (lt_of_le_of_lt hmM h1))]
  · rw [timer_body_upper_miss t rand v p b (by rw [hu]; exact h1)]
    by_cases h2 : v < m
    · rw [timer_lower_hit t rand v p b (by rw [hl]; exact h2)]
      rw [if_neg (by rw [hl]; exact ne_of_lt (lt_of_le_of_lt hmM hM2))]
      obtain ⟨hru, hrl⟩ := timer_reservoir_extrema t rand b.lower p
        { b with lower_sample_rate := p, lower := v }
      refine ⟨timer_reservoir_sampling _ _ _ _ _, ?_, ?_⟩
      · rw [hru]
        simp [hu, max_eq_left (not_lt.mp h1)]
      · rw [hrl]
        simp [min_eq_right (le_of_lt h2)]
    · rw [timer_lower_miss t rand v p b (by rw [hl]; exact h2)]
      obtain ⟨hru, hrl⟩ := timer_reservoir_extrema t rand v p b
      refine ⟨timer_reservoir_sampling _ _ _ _ _, ?_, ?_⟩
      · rw [hru, hu]
        exact (max_eq_left (not_lt.mp h1)).symm
      · rw [hrl, hl]
        exact (min_eq_left (not_lt.mp h2)).symm

/-- A run of consider_timer existing-bucket calls on one bucket: each
event is (value, presampling_value, lrand48 draw); the clock value is
immaterial to the extrema and fixed at 0. -/
def run_timer (t : ℕ) (b : sample_bucket) : List (ℚ × ℚ × ℕ) → sample_bucket
  | [] => b
  | (v, p, r) :: rest => run_timer t (timer_on_existing t r 0 ⟨v, METRIC_TIMER, p⟩ b).2 rest

/-- With both extrema set and in range, a run of in-bounds values keeps
`upper`/`lower` equal to the running max/min. -/
theorem run_timer_extrema (t : ℕ) (evs : List (ℚ × ℚ × ℕ)) (b : sample_bucket) (M m : ℚ)
    (hs : b.sampling = true) (hu : b.upper = M) (hl : b.lower = m)
    (hmM : m ≤ M) (hm1 : dblMin < m) (hM2 : M < dblMax)
    (hb : ∀ x ∈ evs, dblMin < x.1 ∧ x.1 < dblMax) :
    (run_timer t b evs).sampling = true ∧
    (run_timer t b evs).upper = (evs.map (fun x => x.1)).foldl max M ∧
    (run_timer t b evs).lower = (evs.map (fun x => x.1)).foldl min m := by
  induction evs generalizing b M m with
  | nil => exact ⟨hs, hu, hl⟩
  | cons x rest ih =>
    obtain ⟨v, p, r⟩ := x
    have hx := hb (v, p, r) (by simp)
    have heq := timer_on_existing_sampling_eq t r 0 ⟨v, METRIC_TIMER, p⟩ b hs
    obtain ⟨hstep_s, hstep_u, hstep_l⟩ := timer_body_both t r v p
      { b with last_window_count := b.last_window_count + 1, last_modified_at := 0 }
      M m hu hl hmM hm1 hM2 hx.1 hx.2
    have hs' : ((timer_on_existing t r 0 ⟨v, METRIC_TIMER, p⟩ b).2).sampling = true := by
      rw [heq, hstep_s]
      exact hs
    have hu' : ((timer_on_existing t r 0 ⟨v, METRIC_TIMER, p⟩ b).2).upper = max M v := by
      rw [heq]
      exact hstep_u
    have hl' : ((timer_on_existing t r 0 ⟨v, METRIC_TIMER, p⟩ b).2).lower = min m v := by
      rw [heq]
      exact hstep_l
    have hrec := ih ((timer_on_existing t r 0 ⟨v, METRIC_TIMER, p⟩ b).2) (max M v) (min m v)
      hs' hu' hl'
      (le_trans (le_trans (min_le_left m v) hmM) (le_max_left M v))
      (lt_min hm1 hx.1) (max_lt hM2 hx.2)
      (fun y hy => hb y (List.mem_cons_of_mem _ hy))
    exact ⟨hrec.1, by simpa [run_timer] using hrec.2.1, by simpa [run_timer] using hrec.2.2⟩

/-- One existing-bucket call on a fresh sampling bucket. -/
theorem timer_step_fresh (t rand : ℕ) (now : ℤ) (v p : ℚ) (b : sample_bucket)
    (hs : b.sampling = true) (hu : b.upper = dblMin) (hl : b.lower = dblMax)
    (hv : dblMin < v) :
    ((timer_on_existing t rand now ⟨v, METRIC_TIMER, p⟩ b).2).sampling = true ∧
    ((timer_on_existing t rand now ⟨v, METRIC_TIMER, p⟩ b).2).upper = v ∧
    ((timer_on_existing t rand now ⟨v, METRIC_TIMER, p⟩ b).2).lower = dblMax := by
  have heq := timer_on_existing_sampling_eq t rand now ⟨v, METRIC_TIMER, p⟩ b hs
  obtain ⟨h1, h2, h3⟩ := timer_body_fresh t rand v p
    { b with last_window_count := b.last_window_count + 1, last_modified_at := now }
    hu hl hv
  rw [heq]
  exact ⟨by rw [h1]; exact hs, h2, h3⟩

/-- One existing-bucket call on a bucket with only `upper` set. -/
theorem timer_step_second (t rand : ℕ) (now : ℤ) (v p : ℚ) (b : sample_bucket) (w : ℚ)
    (hs : b.sampling = true) (hu : b.upper = w) (hl : b.lower = dblMax)
    (hw1 : dblMin < w) (hw2 : w < dblMax) (hv1 : dblMin < v) (hv2 : v < dblMax) :
    ((timer_on_existing t rand now ⟨v, METRIC_TIMER, p⟩ b).2).sampling = true ∧
    ((timer_on_existing t rand now ⟨v, METRIC_TIMER, p⟩ b).2).upper = max w v ∧
    ((timer_on_existing t rand now ⟨v, METRIC_TIMER, p⟩ b).2).lower = min w v := by
  have heq := timer_on_existing_sampling_eq t rand now ⟨v, METRIC_TIMER, p⟩ b hs
  obtain ⟨h1, h2, h3⟩ := timer_body_second t rand v p
    { b with last_window_count := b.last_window_count + 1, last_modified_at := now }
    w hu hl hw1 hw2 hv1 hv2
  rw [heq]
  exact ⟨by rw [h1]; exact hs, h2, h3⟩

/-- C5.  Mechanism: in sampling mode a value above `upper` sets
`upper_sample_rate` to the record's presampling_value and, when `upper`
was still the sentinel DBL_MIN, just sets `upper = value` and returns
SAMPLING without touching the reservoir (or sum/count); otherwise the
old `upper` is displaced into the reservoir-insertion path and
`upper = value`; symmetrically for `lower` with sentinel DBL_MAX.
Consequently, for values all observed in sampling mode on a fresh
bucket and lying strictly between the sentinels, the final `upper` is
their maximum, and the final `lower` is their minimum as soon as at
least two values were seen — after a single value `lower` is still the
DBL_MAX sentinel (the claim's sentinel-case exception). -/
theorem timer_extrema_exact (t : ℕ) (b0 : sample_bucket) (evs : List (ℚ × ℚ × ℕ))
    (rand : ℕ) (v0 p0 : ℚ) (bx : sample_bucket)
    (hs : b0.sampling = true) (hu : b0.upper = dblMin) (hl : b0.lower = dblMax)
    (hb : ∀ x ∈ evs, dblMin < x.1 ∧ x.1 < dblMax) :
    (bx.upper < v0 → timer_body t rand v0 p0 bx =
      (if bx.upper = dblMin
       then (SAMPLER_SAMPLING, { bx with upper_sample_rate := p0, upper := v0 })
       else timer_lower t rand bx.upper p0 { bx with upper_sample_rate := p0, upper := v0 })) ∧
    (¬bx.upper < v0 → timer_body t rand v0 p0 bx = timer_lower t rand v0 p0 bx) ∧
    (v0 < bx.lower → timer_lower t rand v0 p0 bx =
      (if bx.lower = dblMax
       then (SAMPLER_SAMPLING, { bx with lower_sample_rate := p0, lower := v0 })
       else timer_reservoir t rand bx.lower p0 { bx with lower_sample_rate := p0, lower := v0 })) ∧
    (bx.upper = dblMin → bx.upper < v0 →
      ((timer_body t rand v0 p0 bx).1 = SAMPLER_SAMPLING ∧
       (timer_body t rand v0 p0 bx).2.reservoir = bx.reservoir ∧
       (timer_body t rand v0 p0 bx).2.reservoir_index = bx.reservoir_index ∧
       (timer_body t rand v0 p0 bx).2.sum = bx.sum ∧
       (timer_body t rand v0 p0 bx).2.count = bx.count ∧
       (timer_body t rand v0 p0 bx).2.upper = v0 ∧
       (timer_body t rand v0 p0 bx).2.upper_sample_rate = p0)) ∧
    (∀ v p r rest, evs = (v, p, r) :: rest →
      ((run_timer t b0 evs).sampling = true ∧
       (run_timer t b0 evs).upper = (rest.map (fun x => x.1)).foldl max v)) ∧
    (∀ v p r, evs = [(v, p, r)] → (run_timer t b0 evs).lower = dblMax) ∧
    (∀ v p r w q r2 rest, evs = (v, p, r) :: (w, q, r2) :: rest →
      (run_timer t b0 evs).lower = (rest.map (fun x => x.1)).foldl min (min v w)) := by
  refine ⟨fun h => timer_body_upper_hit t rand v0 p0 bx h,
    fun h => timer_body_upper_miss t rand v0 p0 bx h,
    fun h => timer_lower_hit t rand v0 p0 bx h,
    fun hd h => ?_, fun v p r rest heq => ?_, fun v p r heq => ?_,
    fun v p r w q r2 rest heq => ?_⟩
  · rw [timer_body_upper_hit t rand v0 p0 bx h, if_pos hd]
    exact ⟨rfl, rfl, rfl, rfl, rfl, rfl, rfl⟩
  · subst heq
    have hx := hb (v, p, r) (by simp)
    obtain ⟨hs1, hu1, hl1⟩ := timer_step_fresh t r 0 v p b0 hs hu hl hx.1
    cases rest with
    | nil =>
      exact ⟨hs1, by simpa [run_timer] using hu1⟩
    | cons y rest2 =>
      obtain ⟨w, q, r2⟩ := y
      have hy := hb (w, q, r2) (by simp)
      obtain ⟨hs2, hu2, hl2⟩ := timer_step_second t r2 0 w q _ v hs1 hu1 hl1
        hx.1 hx.2 hy.1 hy.2
      have hrec := run_timer_extrema t rest2 _ (max v w) (min v w) hs2 hu2 hl2
        (min_le_of_left_le (le_max_left v w)) (lt_min hx.1 hy.1) (max_lt hx.2 hy.2)
        (fun z hz => hb z (by simp [hz]))
      refine ⟨?_, ?_⟩
      · simpa [run_timer] using hrec.1
      · simpa [run_timer] using hrec.2.1
  · subst heq
    have hx := hb (v, p, r) (by simp)
    obtain ⟨hs1, hu1, hl1⟩ := timer_step_fresh t r 0 v p b0 hs hu hl hx.1
    simpa [run_timer] using hl1
  · subst heq
    have hx := hb (v, p, r) (by simp)
    have hy := hb (w, q, r2) (by simp)
    obtain ⟨hs1, hu1, hl1⟩ := timer_step_fresh t r 0 v p b0 hs hu hl hx.1
    obtain ⟨hs2, hu2, hl2⟩ := timer_step_second t r2 0 w q _ v hs1 hu1 hl1
      hx.1 hx.2 hy.1 hy.2
    have hrec := run_timer_extrema t rest _ (max v w) (min v w) hs2 hu2 hl2
      (min_le_of_left_le (le_max_left v w)) (lt_min hx.1 hy.1) (max_lt hx.2 hy.2)
      (fun z hz => hb z (by simp [hz]))
    simpa [run_timer] using hrec.2.2

/-- A fresh timer bucket already in sampling mode (threshold 2). -/
def c5_bucket : sample_bucket :=
  { sampling := true, last_window_count := 0, last_modified_at := 0, sum := 0, count := 0,
    type := METRIC_TIMER, reservoir_index := 0, upper := dblMin, lower := dblMax,
    lower_sample_rate := 0, upper_sample_rate := 0, reservoir := [none, none] }

/-- Three in-range timer events: values 5, 3, 7. -/
def c5_events : List (ℚ × ℚ × ℕ) := [(5, 1, 0), (3, 1, 0), (7, 1, 0)]

/-- C5's witness: the three-event run ends with upper = 7 = max and
lower = 3 = min. -/
theorem timer_extrema_exact_witness :
    (c5_bucket.sampling = true ∧ c5_bucket.upper = dblMin ∧ c5_bucket.lower = dblMax ∧
      (∀ x ∈ c5_events, dblMin < x.1 ∧ x.1 < dblMax)) ∧
    ((c5_bucket.upper < 1 → timer_body 2 0 1 1 c5_bucket =
      (if c5_bucket.upper = dblMin
       then (SAMPLER_SAMPLING, { c5_bucket with upper_sample_rate := 1, upper := 1 })
       else timer_lower 2 0 c5_bucket.upper 1
         { c5_bucket with upper_sample_rate := 1, upper := 1 })) ∧
    (¬c5_bucket.upper < 1 → timer_body 2 0 1 1 c5_bucket = timer_lower 2 0 1 1 c5_bucket) ∧
    ((1 : ℚ) < c5_bucket.lower → timer_lower 2 0 1 1 c5_bucket =
      (if c5_bucket.lower = dblMax
       then (SAMPLER_SAMPLING, { c5_bucket with lower_sample_rate := 1, lower := 1 })
       else timer_reservoir 2 0 c5_bucket.lower 1
         { c5_bucket with lower_sample_rate := 1, lower := 1 })) ∧
    (c5_bucket.upper = dblMin → c5_bucket.upper < 1 →
      ((timer_body 2 0 1 1 c5_bucket).1 = SAMPLER_SAMPLING ∧
       (timer_body 2 0 1 1 c5_bucket).2.reservoir = c5_bucket.reservoir ∧
       (timer_body 2 0 1 1 c5_bucket).2.reservoir_index = c5_bucket.reservoir_index ∧
       (timer_body 2 0 1 1 c5_bucket).2.sum = c5_bucket.sum ∧
       (timer_body 2 0 1 1 c5_bucket).2.count = c5_bucket.count ∧
       (timer_body 2 0 1 1 c5_bucket).2.upper = 1 ∧
       (timer_body 2 0 1 1 c5_bucket).2.upper_sample_rate = 1)) ∧
    (∀ v p r rest, c5_events = (v, p, r) :: rest →
      ((run_timer 2 c5_bucket c5_events).sampling = true ∧
       (run_timer 2 c5_bucket c5_events).upper = (rest.map (fun x => x.1)).foldl max v)) ∧
    (∀ v p r, c5_events = [(v, p, r)] → (run_timer 2 c5_bucket c5_events).lower = dblMax) ∧
    (∀ v p r w q r2 rest, c5_events = (v, p, r) :: (w, q, r2) :: rest →
      (run_timer 2 c5_bucket c5_events).lower =
        (rest.map (fun x => x.1)).foldl min (min v w))) := by
  have hb : ∀ x ∈ c5_events, dblMin < x.1 ∧ x.1 < dblMax := by
    intro x hx
    fin_cases hx <;> exact ⟨by norm_num [dblMin], by norm_num [dblMax]⟩
  exact ⟨⟨rfl, rfl, rfl, hb⟩,
    timer_extrema_exact 2 c5_bucket c5_events 0 1 1 c5_bucket rfl rfl rfl hb⟩
